import Mathlib

set_option maxRecDepth 40000

/-!
Shallow embedding of `src/index.ts` of the youtube-transcript library
(class `YoutubeTranscript`), together with proofs about the claims of the
specification.  Strings are modelled as `List Char` / `String` (Unicode
code points; the source's JavaScript uses UTF-16 code units, which agree
on all inputs considered here), JavaScript runtime values reachable from
`JSON.parse` as an inductive `JsValue`, the network as a deterministic
function from requests to responses, and thrown exceptions as explicit
outcome values (`FetchOutcome.domainError` for the library's own error
classes, `FetchOutcome.runtimeError` for raw runtime exceptions such as
`TypeError`).
-/

/-- JavaScript `\s` character class (the whitespace set used by the
`RE_YOUTUBE` regular expression and by `parseFloat` trimming). -/
def jsWhitespace (c : Char) : Bool :=
  c = ' ' || c = '\t' || c = '\n' || c = '\r' || c = '\x0b' || c = '\x0c' ||
  c.val = 0x00a0 || c.val = 0x1680 || (0x2000 ≤ c.val && c.val ≤ 0x200a) ||
  c.val = 0x2028 || c.val = 0x2029 || c.val = 0x202f || c.val = 0x205f ||
  c.val = 0x3000 || c.val = 0xfeff

/-- Character class of the capturing group of `RE_YOUTUBE`:
`[^"&?\/\s]` (anything except double quote, ampersand, question mark,
slash, and whitespace). -/
def capClass (c : Char) : Bool :=
  !(c = '"' || c = '&' || c = '?' || c = '/' || jsWhitespace c)

/-- The `.` of a JavaScript regular expression without the `s` flag:
any character except a line terminator. -/
def jsDot (c : Char) : Bool :=
  !(c = '\n' || c = '\r' || c.val = 0x2028 || c.val = 0x2029)

/-- Character class `[^\/]` of `RE_YOUTUBE`. -/
def nonSlash (c : Char) : Bool := !(c = '/')

/-- Character class `[?&]` of `RE_YOUTUBE`. -/
def qAmp (c : Char) : Bool := c = '?' || c = '&'

/-- Left-biased choice on `Option`, the backbone of regular-expression
alternation and backtracking. -/
def firstSome {α : Type} : Option α → Option α → Option α
  | some x, _ => some x
  | none, y => y

@[simp] theorem firstSome_some_eq {α : Type} (x : α) (y : Option α) :
    firstSome (some x) y = some x := by
  rfl

@[simp] theorem firstSome_none {α : Type} (y : Option α) :
    firstSome none y = y := rfl

/-- Case-insensitive literal matching (the `i` flag of `RE_YOUTUBE`):
consume `lit` from the front of `cs`, comparing characters through
`Char.toLower`, and return the remainder. -/
def litCI : List Char → List Char → Option (List Char)
  | [], cs => some cs
  | _ :: _, [] => none
  | l :: ls, c :: cs => if l.toLower = c.toLower then litCI ls cs else none

/-- Greedy Kleene star over a character class, in continuation-passing
style: consume as many `cls` characters as possible, backtracking one
character at a time into the continuation `k`. -/
def manyGreedy (cls : Char → Bool) : List Char → (List Char → Option (List Char)) →
    Option (List Char)
  | [], k => k []
  | c :: cs, k =>
    if cls c then firstSome (manyGreedy cls cs k) (k (c :: cs)) else k (c :: cs)

/-- Take exactly `n` characters satisfying `cls`, returning them and the
remainder. -/
def takeCls (cls : Char → Bool) : Nat → List Char → Option (List Char × List Char)
  | 0, cs => some ([], cs)
  | _ + 1, [] => none
  | n + 1, c :: cs =>
    if cls c then (takeCls cls n cs).map (fun p => (c :: p.1, p.2)) else none

/-- The capturing group `([^"&?\/\s]{11})` of `RE_YOUTUBE`: exactly 11
characters of `capClass`.  Nothing follows the group in the pattern, so a
successful take completes the match. -/
def captureGroup (cs : List Char) : Option (List Char) :=
  (takeCls capClass 11 cs).map Prod.fst

/-- Literal followed by the capturing group. -/
def litThenCap (lit : List Char) (cs : List Char) : Option (List Char) :=
  match litCI lit cs with
  | some r => captureGroup r
  | none => none

/-- Tail of the first inner alternative `[^\/]+\/.+\/` after its `.+` has
been matched: a `/` followed by the capturing group. -/
def slashThenCap (cs : List Char) : Option (List Char) :=
  match cs with
  | c :: r => if c = '/' then captureGroup r else none
  | [] => none

/-- The `.+\/` part of the first inner alternative, followed by the
capturing group. -/
def dotPlusSlashCap (cs : List Char) : Option (List Char) :=
  match cs with
  | c :: r => if jsDot c then manyGreedy jsDot r slashThenCap else none
  | [] => none

/-- Tail of the first inner alternative after its `[^\/]+` has been
matched: `\/.+\/` followed by the capturing group. -/
def slashThenDotPlus (cs : List Char) : Option (List Char) :=
  match cs with
  | c :: r => if c = '/' then dotPlusSlashCap r else none
  | [] => none

/-- First inner alternative of `RE_YOUTUBE`: `[^\/]+\/.+\/` followed by
the capturing group ("a path with an arbitrary segment before the id"). -/
def altSegment (cs : List Char) : Option (List Char) :=
  match cs with
  | c :: r => if nonSlash c then manyGreedy nonSlash r slashThenDotPlus else none
  | [] => none

/-- Second inner alternative of `RE_YOUTUBE`: `(?:v|e(?:mbed)?)\/`
followed by the capturing group, alternatives in the engine's order
(`v/`, then greedy `embed/`, then `e/`). -/
def altVE (cs : List Char) : Option (List Char) :=
  firstSome (litThenCap ['v', '/'] cs)
    (firstSome (litThenCap ['e', 'm', 'b', 'e', 'd', '/'] cs)
      (litThenCap ['e', '/'] cs))

/-- Tail of the third inner alternative after its `.*`: `[?&]v=` followed
by the capturing group. -/
def qvEq (cs : List Char) : Option (List Char) :=
  match cs with
  | c :: r => if qAmp c then litThenCap ['v', '='] r else none
  | [] => none

/-- Third inner alternative of `RE_YOUTUBE`: `.*[?&]v=` followed by the
capturing group. -/
def altQuery (cs : List Char) : Option (List Char) :=
  manyGreedy jsDot cs qvEq

/-- The inner alternation of `RE_YOUTUBE` after the literal
`youtube.com/`. -/
def innerAlts (cs : List Char) : Option (List Char) :=
  firstSome (altSegment cs) (firstSome (altVE cs) (altQuery cs))

/-- Literal `youtube.com/` of `RE_YOUTUBE`. -/
def LIT_YTCOM : List Char := ['y', 'o', 'u', 't', 'u', 'b', 'e', '.', 'c', 'o', 'm', '/']

/-- Literal `youtu.be/` of `RE_YOUTUBE`. -/
def LIT_YTBE : List Char := ['y', 'o', 'u', 't', 'u', '.', 'b', 'e', '/']

/-- Attempt to match `RE_YOUTUBE` at the start of `cs`, returning the
text of the capturing group. -/
def tryAt (cs : List Char) : Option (List Char) :=
  firstSome
    (match litCI LIT_YTCOM cs with
     | some r => innerAlts r
     | none => none)
    (match litCI LIT_YTBE cs with
     | some r => captureGroup r
     | none => none)

/-- Leftmost match of `RE_YOUTUBE` (the semantics of
`String.prototype.match` with a non-global regular expression): try every
start position from the left. -/
def scanYt : List Char → Option (List Char)
  | [] => none
  | c :: cs => firstSome (tryAt (c :: cs)) (scanYt cs)

/-! ## JavaScript values and `JSON.parse` -/

/-- Runtime JavaScript values reachable in the source: everything
`JSON.parse` can produce, plus `undefined` (the result of a
missing-property access or a failed optional chain).  Numbers keep their
raw JSON lexeme: the source never does arithmetic on a parsed number, so
only the lexeme's truthiness is ever observed. -/
inductive JsValue where
  | undefined
  | null
  | bool (b : Bool)
  | num (raw : String)
  | str (s : String)
  | arr (elems : List JsValue)
  | obj (fields : List (String × JsValue))

/-- Is a JSON number lexeme the number zero (`0`, `-0`, `0.00`, `0e5`,
...)?  Digits of the exponent do not count. -/
def jsonNumIsZero (raw : String) : Bool :=
  ((raw.toList.takeWhile (fun c => !(c = 'e' || c = 'E'))).filter Char.isDigit).all
    (fun c => c = '0')

/-- JavaScript truthiness of a `JsValue`. -/
def jsTruthy : JsValue → Bool
  | .undefined => false
  | .null => false
  | .bool b => b
  | .num raw => !jsonNumIsZero raw
  | .str s => !s.isEmpty
  | .arr _ => true
  | .obj _ => true

/-- Plain property read `v[k]` for a `v` that is not `null`/`undefined`:
object fields are looked up (first occurrence; the JSON parser below
keeps at most one field per key), any other value has no such property
and yields `undefined`.  (Inherited properties such as array methods are
not modelled; the source never reads one through this helper.) -/
def jsGetPerm : JsValue → String → JsValue
  | .obj fs, k => (((fs.find? (fun p => p.1 = k)).map Prod.snd).getD .undefined)
  | _, _ => .undefined

/-- Optional-chain property read `v?.[k]`: `undefined` when `v` is
`null`/`undefined`, otherwise a plain read. -/
def jsOptField (v : JsValue) (k : String) : JsValue :=
  match v with
  | .null => .undefined
  | .undefined => .undefined
  | _ => jsGetPerm v k

/-- The `in` operator `k in v`: key membership for objects, `false` for a
non-index key on an array, a `TypeError` on any primitive. -/
def jsInCheck : JsValue → String → Except String Bool
  | .obj fs, k => .ok (fs.any (fun p => p.1 = k))
  | .arr _, _ => .ok false
  | _, _ => .error "TypeError"

/-- Indexing `v[0]`: the first element of an array (or `undefined` when
empty), the `"0"` field of an object, the first character of a string,
`undefined` on numbers and booleans, and a `TypeError` on
`null`/`undefined`. -/
def jsIndex0 : JsValue → Except String JsValue
  | .arr [] => .ok .undefined
  | .arr (x :: _) => .ok x
  | .obj fs => .ok (jsGetPerm (.obj fs) "0")
  | .str s => .ok (match s.toList with
                   | [] => .undefined
                   | c :: _ => .str (String.mk [c]))
  | .num _ => .ok .undefined
  | .bool _ => .ok .undefined
  | .null => .error "TypeError"
  | .undefined => .error "TypeError"

/-- Plain property read `v.k` including the `TypeError` thrown when `v`
is `null`/`undefined`. -/
def jsGetSafe : JsValue → String → Except String JsValue
  | .null, _ => .error "TypeError"
  | .undefined, _ => .error "TypeError"
  | v, k => .ok (jsGetPerm v k)

/-- JSON whitespace (the only characters `JSON.parse` skips between
tokens). -/
def jsonWs (c : Char) : Bool :=
  c = ' ' || c = '\t' || c = '\n' || c = '\r'

/-- Drop leading JSON whitespace. -/
def skipJsonWs : List Char → List Char
  | [] => []
  | c :: cs => if jsonWs c then skipJsonWs cs else c :: cs

/-- Insert a field into an object under construction with JavaScript's
duplicate-key rule: the first occurrence keeps its position, the last
occurrence keeps its value. -/
def objInsert (fs : List (String × JsValue)) (k : String) (v : JsValue) :
    List (String × JsValue) :=
  if fs.any (fun p => p.1 = k) then fs.map (fun p => if p.1 = k then (k, v) else p)
  else fs ++ [(k, v)]

/-- Is `c` a hexadecimal digit? -/
def isHexDigit (c : Char) : Bool :=
  c.isDigit || ('a' ≤ c && c ≤ 'f') || ('A' ≤ c && c ≤ 'F')

/-- Numeric value of a hexadecimal digit. -/
def hexVal (c : Char) : Nat :=
  if c.isDigit then c.toNat - '0'.toNat
  else if 'a' ≤ c && c ≤ 'f' then c.toNat - 'a'.toNat + 10
  else if 'A' ≤ c && c ≤ 'F' then c.toNat - 'A'.toNat + 10
  else 0

/-- Body of a JSON string literal after the opening quote: returns the
decoded characters and the remainder after the closing quote.  A `\uXXXX`
escape that does not denote a valid scalar value decodes to `NUL`
(JavaScript would produce a lone surrogate, which `Char` cannot hold; the
source never feeds one to this path). -/
def parseJsonStr : List Char → Option (List Char × List Char)
  | [] => none
  | c :: cs =>
    if c = '"' then some ([], cs)
    else if c = '\\' then
      match cs with
      | [] => none
      | e :: cs2 =>
        if e = '"' || e = '\\' || e = '/' then
          (parseJsonStr cs2).map (fun p => (e :: p.1, p.2))
        else if e = 'b' then (parseJsonStr cs2).map (fun p => ('\x08' :: p.1, p.2))
        else if e = 'f' then (parseJsonStr cs2).map (fun p => ('\x0c' :: p.1, p.2))
        else if e = 'n' then (parseJsonStr cs2).map (fun p => ('\n' :: p.1, p.2))
        else if e = 'r' then (parseJsonStr cs2).map (fun p => ('\r' :: p.1, p.2))
        else if e = 't' then (parseJsonStr cs2).map (fun p => ('\t' :: p.1, p.2))
        else if e = 'u' then
          match cs2 with
          | h1 :: h2 :: h3 :: h4 :: cs3 =>
            if isHexDigit h1 && isHexDigit h2 && isHexDigit h3 && isHexDigit h4 then
              (parseJsonStr cs3).map (fun p =>
                (Char.ofNat (((hexVal h1 * 16 + hexVal h2) * 16 + hexVal h3) * 16 + hexVal h4)
                  :: p.1, p.2))
            else none
          | _ => none
        else none
    else if c.val < 0x20 then none
    else (parseJsonStr cs).map (fun p => (c :: p.1, p.2))

/-- Optional exponent part of a JSON number lexeme: returns the exponent
characters (possibly empty) and the remainder. -/
def parseJsonExp (cs : List Char) : List Char × List Char :=
  match cs with
  | e :: r =>
    if e = 'e' || e = 'E' then
      let (es, r2) : List Char × List Char :=
        match r with
        | s :: r3 => if s = '+' || s = '-' then ([s], r3) else ([], r)
        | [] => ([], r)
      let ds := r2.takeWhile Char.isDigit
      if ds = [] then ([], cs) else (e :: (es ++ ds), r2.drop ds.length)
    else ([], cs)
  | [] => ([], cs)

/-- A JSON number lexeme starting at `cs`: returns the raw lexeme and the
remainder, following the JSON grammar
`-? (0 | [1-9][0-9]*) (. [0-9]+)? ([eE] [+-]? [0-9]+)?`. -/
def parseJsonNum (cs : List Char) : Option (List Char × List Char) :=
  let (sign, cs1) : List Char × List Char :=
    match cs with
    | '-' :: r => (['-'], r)
    | _ => ([], cs)
  let intPart := cs1.takeWhile Char.isDigit
  if intPart = [] then none
  else if 1 < intPart.length && intPart.headD '0' = '0' then none
  else
    let cs2 := cs1.drop intPart.length
    match cs2 with
    | '.' :: r =>
      let ds := r.takeWhile Char.isDigit
      if ds = [] then none
      else
        let (ex, cs4) := parseJsonExp (r.drop ds.length)
        some (sign ++ intPart ++ '.' :: ds ++ ex, cs4)
    | _ =>
      let (ex, cs4) := parseJsonExp cs2
      some (sign ++ intPart ++ ex, cs4)

mutual

/-- `JSON.parse`, recursive descent with a fuel argument (any fuel at
least the input length suffices; callers pass `length + 1`).  Returns the
value and the unconsumed remainder. -/
def parseJsonVal : Nat → List Char → Option (JsValue × List Char)
  | 0, _ => none
  | fuel + 1, cs =>
    match skipJsonWs cs with
    | [] => none
    | c :: rest =>
      if c = 'n' then
        match rest with
        | 'u' :: 'l' :: 'l' :: r => some (.null, r)
        | _ => none
      else if c = 't' then
        match rest with
        | 'r' :: 'u' :: 'e' :: r => some (.bool true, r)
        | _ => none
      else if c = 'f' then
        match rest with
        | 'a' :: 'l' :: 's' :: 'e' :: r => some (.bool false, r)
        | _ => none
      else if c = '"' then
        (parseJsonStr rest).map (fun p => (.str (String.mk p.1), p.2))
      else if c = '\x5b' then
        match skipJsonWs rest with
        | '\x5d' :: r => some (.arr [], r)
        | _ => parseJsonItems fuel [] rest
      else if c = '\x7b' then
        match skipJsonWs rest with
        | '\x7d' :: r => some (.obj [], r)
        | _ => parseJsonMembers fuel [] rest
      else
        (parseJsonNum (c :: rest)).map (fun p => (.num (String.mk p.1), p.2))

/-- Elements of a JSON array after `[` (at least one element pending). -/
def parseJsonItems : Nat → List JsValue → List Char → Option (JsValue × List Char)
  | 0, _, _ => none
  | fuel + 1, acc, cs =>
    match parseJsonVal fuel cs with
    | none => none
    | some (v, rest) =>
      match skipJsonWs rest with
      | ',' :: r => parseJsonItems fuel (acc ++ [v]) r
      | '\x5d' :: r => some (.arr (acc ++ [v]), r)
      | _ => none

/-- Members of a JSON object after the opening brace (at least one member
pending). -/
def parseJsonMembers : Nat → List (String × JsValue) → List Char →
    Option (JsValue × List Char)
  | 0, _, _ => none
  | fuel + 1, acc, cs =>
    match skipJsonWs cs with
    | '"' :: r =>
      match parseJsonStr r with
      | none => none
      | some (kcs, r2) =>
        match skipJsonWs r2 with
        | ':' :: r3 =>
          match parseJsonVal fuel r3 with
          | none => none
          | some (v, rest) =>
            match skipJsonWs rest with
            | ',' :: r4 => parseJsonMembers fuel (objInsert acc (String.mk kcs) v) r4
            | '\x7d' :: r4 => some (.obj (objInsert acc (String.mk kcs) v), r4)
            | _ => none
        | _ => none
    | _ => none

end

/-- `JSON.parse` on a whole input: the parsed value, provided nothing but
whitespace remains. -/
def parseJson (cs : List Char) : Option JsValue :=
  match parseJsonVal (cs.length + 1) cs with
  | some (v, rest) => if skipJsonWs rest = [] then some v else none
  | none => none

/-- The error classes of the source, one constructor per `class ... extends
YoutubeTranscriptError` declaration, plus `base` for a directly thrown
`YoutubeTranscriptError` (carrying its raw message).  Payloads are the
constructor arguments of the corresponding classes. -/
inductive TranscriptError where
  | base (message : String)
  | tooManyRequests
  | videoUnavailable (videoId : String)
  | disabled (videoId : String)
  | notAvailable (videoId : String)
  | notAvailableLanguage (lang : String) (availableLangs : List JsValue) (videoId : String)

/-- True for the dedicated subclasses of `YoutubeTranscriptError`, false
for a directly thrown instance of the base class itself. -/
def isDedicatedVariant : TranscriptError → Bool
  | .base _ => false
  | _ => true

/-- `YoutubeTranscript.retrieveVideoId`: an exactly-11-character input is
returned unchanged; otherwise the first capturing group of the leftmost
`RE_YOUTUBE` match is returned; otherwise a bare `YoutubeTranscriptError`
is thrown. -/
def retrieveVideoId (videoId : String) : Except TranscriptError String :=
  if videoId.length = 11 then Except.ok videoId
  else
    match scanYt videoId.toList with
    | some cap => Except.ok (String.mk cap)
    | none => Except.error (.base "Impossible to retrieve Youtube video ID.")

example : retrieveVideoId "dQw4w9WgXcQ" = .ok "dQw4w9WgXcQ" := rfl
example : retrieveVideoId "https://www.youtube.com/watch?v=dQw4w9WgXcQ" = .ok "dQw4w9WgXcQ" := rfl
example : retrieveVideoId "https://youtu.be/dQw4w9WgXcQ" = .ok "dQw4w9WgXcQ" := rfl
example : retrieveVideoId "https://www.youtube.com/embed/dQw4w9WgXcQ" = .ok "dQw4w9WgXcQ" := rfl
example : retrieveVideoId "https://www.youtube.com/v/dQw4w9WgXcQ" = .ok "dQw4w9WgXcQ" := rfl
example : retrieveVideoId "https://www.youtube.com/e/dQw4w9WgXcQ" = .ok "dQw4w9WgXcQ" := rfl
example : retrieveVideoId "https://www.youtube.com/shorts/x/dQw4w9WgXcQ" = .ok "dQw4w9WgXcQ" := rfl
example : retrieveVideoId "not a url" =
    .error (.base "Impossible to retrieve Youtube video ID.") := rfl

example : parseJson "\x7b\"a\":1,\"b\":[true,null,\"x\"]\x7d".toList =
    some (.obj [("a", .num "1"), ("b", .arr [.bool true, .null, .str "x"])]) := rfl
example : parseJson " \x7b \"a\" : -1.5e2 , \"a\" : \"dup\" \x7d ".toList =
    some (.obj [("a", .str "dup")]) := rfl
example : parseJson "\x7b\"playerCaptionsTracklistRenderer\":\x7b\"captionTracks\":[]\x7d\x7d".toList =
    some (.obj [("playerCaptionsTracklistRenderer", .obj [("captionTracks", .arr [])])]) := rfl
example : parseJson "bogus".toList = none := rfl
example : parseJson "\"a\\nb\\u0041\"".toList = some (.str "a\nbA") := rfl
example : parseJson "01".toList = none := rfl

/-! ## Page-body processing (primary HTML discovery path) -/

/-- JavaScript strict equality `v === s` where `s` is a string (the only
shape of `===` in the source: `track.languageCode === config.lang`). -/
def jsStrEq (v : JsValue) (s : String) : Bool :=
  match v with
  | .str s2 => s2 = s
  | _ => false

/-- Split a list at the first occurrence of `sep`: returns the part
before and the part after the occurrence, or `none` when `sep` does not
occur.  This is the building block for `String.prototype.split` (of which
the source only uses elements `[0]` and `[1]`) and
`String.prototype.includes`. -/
def breakOnSeq (sep : List Char) : List Char → Option (List Char × List Char)
  | [] => if sep.isPrefixOf [] then some ([], []) else none
  | c :: cs =>
    if sep.isPrefixOf (c :: cs) then some ([], (c :: cs).drop sep.length)
    else (breakOnSeq sep cs).map (fun p => (c :: p.1, p.2))

/-- `String.prototype.includes` on character lists. -/
def containsSeq (sep cs : List Char) : Bool := (breakOnSeq sep cs).isSome

/-- `String.prototype.replace` with the one-character search string
`'\n'`: remove the first occurrence of `x`, if any. -/
def removeFirst (x : Char) : List Char → List Char
  | [] => []
  | c :: cs => if c = x then cs else c :: removeFirst x cs

/-- The split marker `"captions":` of the watch-page body. -/
def CAPTIONS_SPLIT : List Char := "\"captions\":".toList

/-- The split marker `,"videoDetails` bounding the captions JSON. -/
def VIDEODETAILS_SPLIT : List Char := ",\"videoDetails".toList

/-- The CAPTCHA marker `class="g-recaptcha"`. -/
def RECAPTCHA_MARKER : List Char := "class=\"g-recaptcha\"".toList

/-- The marker `"playabilityStatus":` distinguishing an unavailable video
page from one with captions disabled. -/
def PLAYABILITY_MARKER : List Char := "\"playabilityStatus\":".toList

/-- Element `[1]` of `videoPageBody.split('"captions":')`: the text after
the first occurrence of the marker, up to the next occurrence (or the end
of the body), or `none` when the split has at most one part. -/
def splitSecondPart (body : List Char) : Option (List Char) :=
  match breakOnSeq CAPTIONS_SPLIT body with
  | none => none
  | some (_, post) =>
    some (match breakOnSeq CAPTIONS_SPLIT post with
          | some (pre2, _) => pre2
          | none => post)

/-- One attempt of the fallback pattern `"captions":\s*(\x7b[^\x7d]+\x7d)` at the
start of `cs`: the literal (case-sensitive, the pattern has no `i` flag),
greedily skipped whitespace, then a brace-delimited group with at least
one non-closing-brace character, returned including its braces. -/
def altCapAt (cs : List Char) : Option (List Char) :=
  if CAPTIONS_SPLIT.isPrefixOf cs then
    match (cs.drop CAPTIONS_SPLIT.length).dropWhile jsWhitespace with
    | '\x7b' :: r3 =>
      let inner := r3.takeWhile (fun c => !(c = '\x7d'))
      if inner = [] then none
      else
        match r3.drop inner.length with
        | '\x7d' :: _ => some ('\x7b' :: (inner ++ ['\x7d']))
        | _ => none
    | _ => none
  else none

/-- Leftmost match of the fallback pattern over the whole body
(`String.prototype.match`, first capturing group). -/
def altCaptionsMatch : List Char → Option (List Char)
  | [] => none
  | c :: cs => firstSome (altCapAt (c :: cs)) (altCaptionsMatch cs)

/-- Result of the primary HTML phase (the body of the `try` at lines
77-118 of the source, after the page fetch): either a captions value
(possibly `undefined`), a deliberately classified error (lines 91-98), or
some other exception (a `SyntaxError` from the fallback `JSON.parse`).
The caller's `catch` turns the latter two into a `null` captions value. -/
inductive HtmlPhaseResult where
  | ok (captions : JsValue)
  | classified (e : TranscriptError)
  | thrown

/-- Lines 89-114 of the source: split the page body on `"captions":`,
classify a missing marker, otherwise extract and parse the captions JSON
(with the fallback pattern on parse failure) and project
`playerCaptionsTracklistRenderer` through an optional chain. -/
def locateCaptions (videoIdInput : String) (body : List Char) : HtmlPhaseResult :=
  match splitSecondPart body with
  | none =>
    if containsSeq RECAPTCHA_MARKER body then .classified .tooManyRequests
    else if !containsSeq PLAYABILITY_MARKER body then
      .classified (.videoUnavailable videoIdInput)
    else .classified (.disabled videoIdInput)
  | some after =>
    let cand := removeFirst '\n'
      (match breakOnSeq VIDEODETAILS_SPLIT after with
       | some (pre, _) => pre
       | none => after)
    match parseJson cand with
    | some v => .ok (jsOptField v "playerCaptionsTracklistRenderer")
    | none =>
      match altCaptionsMatch body with
      | some g =>
        match parseJson g with
        | some v => .ok (jsOptField v "playerCaptionsTracklistRenderer")
        | none => .thrown
      | none => .ok JsValue.undefined

/-! ## Timed-text parsing (`RE_XML_TRANSCRIPT` and `matchAll`) -/

/-- Consume the literal `lit` (case-sensitively) from the front of `cs`. -/
def expectList (lit cs : List Char) : Option (List Char) :=
  if lit.isPrefixOf cs then some (cs.drop lit.length) else none

/-- One match of `RE_XML_TRANSCRIPT`: the three capturing groups. -/
structure XmlCue where
  start : List Char
  dur : List Char
  txt : List Char

/-- Literal `<text start="` of `RE_XML_TRANSCRIPT`. -/
def CUE_OPEN : List Char := "<text start=\"".toList

/-- Literal `" dur="` of `RE_XML_TRANSCRIPT`. -/
def CUE_MID1 : List Char := "\" dur=\"".toList

/-- Literal `">` of `RE_XML_TRANSCRIPT`. -/
def CUE_MID2 : List Char := "\">".toList

/-- Literal `</text>` of `RE_XML_TRANSCRIPT`. -/
def CUE_CLOSE : List Char := "</text>".toList

/-- Character class `[^"]`. -/
def notQuote (c : Char) : Bool := !(c = '"')

/-- Character class `[^<]`. -/
def notLt (c : Char) : Bool := !(c = '<')

/-- Match `RE_XML_TRANSCRIPT` at the start of `cs`.  Each `[^"]*`/`[^<]*`
group is a greedy run that cannot backtrack past the delimiter that
follows it (the delimiter's first character is excluded from the class),
so matching is deterministic: take the maximal run, then the literal. -/
def cueMatchAt (cs : List Char) : Option (XmlCue × List Char) :=
  match expectList CUE_OPEN cs with
  | none => none
  | some r1 =>
    match expectList CUE_MID1 (r1.drop (r1.takeWhile notQuote).length) with
    | none => none
    | some r2 =>
      match expectList CUE_MID2 (r2.drop (r2.takeWhile notQuote).length) with
      | none => none
      | some r3 =>
        match expectList CUE_CLOSE (r3.drop (r3.takeWhile notLt).length) with
        | none => none
        | some r4 =>
          some (⟨r1.takeWhile notQuote, r2.takeWhile notQuote, r3.takeWhile notLt⟩, r4)

/-- `String.prototype.matchAll`: repeatedly find the leftmost match and
continue after it (every match consumes at least one character, so one
unit of fuel per character suffices). -/
def xmlMatchesF : Nat → List Char → List XmlCue
  | 0, _ => []
  | fuel + 1, cs =>
    match cs with
    | [] => []
    | c :: cs2 =>
      match cueMatchAt (c :: cs2) with
      | some (m, rest) => m :: xmlMatchesF fuel rest
      | none => xmlMatchesF fuel cs2

/-- All non-overlapping matches of `RE_XML_TRANSCRIPT`, in document
order. -/
def xmlMatches (cs : List Char) : List XmlCue := xmlMatchesF cs.length cs

/-! ## `parseFloat` and transcript segments -/

/-- A JavaScript number as produced by `parseFloat`: NaN, a signed
infinity, or a finite value.  Finite values are modelled as exact
rationals rather than IEEE-754 doubles; the source stores them without
doing arithmetic, so only construction matters. -/
inductive JsNumber where
  | nan
  | inf (neg : Bool)
  | val (q : ℚ)

/-- Decimal digits to a natural number. -/
def digitsToNat (cs : List Char) : Nat :=
  cs.foldl (fun n c => n * 10 + (c.toNat - '0'.toNat)) 0

/-- Literal `Infinity` accepted by `parseFloat`. -/
def INFINITY_LIT : List Char := "Infinity".toList

/-- Powers of ten (kernel-friendly). -/
def pow10 : Nat → Nat
  | 0 => 1
  | n + 1 => 10 * pow10 n

/-- The exact rational value of a parsed decimal literal: optional sign,
mantissa digits with `fracLen` of them after the point, and a decimal
exponent.  Built from `Rat.divInt` so that it evaluates inside the
kernel. -/
def decToRat (neg : Bool) (digits : Nat) (fracLen : Nat) (ex : Int) : ℚ :=
  let sd : Int := if neg then -(digits : Int) else (digits : Int)
  match ex with
  | .ofNat k => Rat.divInt (sd * (pow10 k : Int)) ((pow10 fracLen : Nat) : Int)
  | .negSucc k => Rat.divInt sd (((pow10 fracLen * pow10 (k + 1) : Nat)) : Int)

/-- `parseFloat`: skip leading whitespace, an optional sign, then the
longest prefix that is a decimal literal (integer part, optional
fraction, optional exponent — the exponent only counts when it has at
least one digit), or `Infinity`; NaN when no digits were found.  The
value is kept as an exact rational rather than an IEEE-754 double (the
source stores it without arithmetic). -/
def parseFloatM (s : String) : JsNumber :=
  let cs := s.toList.dropWhile jsWhitespace
  let (neg, cs1) : Bool × List Char :=
    match cs with
    | '-' :: r => (true, r)
    | '+' :: r => (false, r)
    | _ => (false, cs)
  if INFINITY_LIT.isPrefixOf cs1 then .inf neg
  else
    let intPart := cs1.takeWhile Char.isDigit
    let cs2 := cs1.drop intPart.length
    let (frac, cs3) : List Char × List Char :=
      match cs2 with
      | '.' :: r => (r.takeWhile Char.isDigit, r.drop (r.takeWhile Char.isDigit).length)
      | _ => ([], cs2)
    if intPart = [] && frac = [] then .nan
    else
      let expVal : Int :=
        match cs3 with
        | e :: r =>
          if e = 'e' || e = 'E' then
            let (eneg, r2) : Bool × List Char :=
              match r with
              | '+' :: r3 => (false, r3)
              | '-' :: r3 => (true, r3)
              | _ => (false, r)
            let ds := r2.takeWhile Char.isDigit
            if ds = [] then 0
            else if eneg then -(digitsToNat ds : Int) else (digitsToNat ds : Int)
          else 0
        | [] => 0
      .val (decToRat neg (digitsToNat (intPart ++ frac)) frac.length expVal)

/-- One element of the result of `fetchTranscript` (interface
`TranscriptResponse`). -/
structure TranscriptSegment where
  text : String
  duration : JsNumber
  offset : JsNumber
  lang : JsValue

/-- Build the segment for one regex match (the object literal at lines
213-218 / 230-235 of the source), given the already-resolved `lang`
value. -/
def mkSegment (langVal : JsValue) (m : XmlCue) : TranscriptSegment :=
  { text := String.mk m.txt
    duration := parseFloatM (String.mk m.dur)
    offset := parseFloatM (String.mk m.start)
    lang := langVal }

/-- `[...body.matchAll(RE_XML_TRANSCRIPT)].map(...)`: one segment per
match, in document order. -/
def parseTimedText (body : String) (langVal : JsValue) : List TranscriptSegment :=
  (xmlMatches body.toList).map (mkSegment langVal)

/-- The value stored in each segment's `lang` field:
`config?.lang ?? track0.languageCode` — nullish coalescing, so a
configured language is used even when it is the empty string; otherwise
the `languageCode` of the track at index 0. -/
def segmentLang (lang : Option String) (track0 : JsValue) : JsValue :=
  match lang with
  | some l => .str l
  | none => jsGetPerm track0 "languageCode"

/-! ## HTTP model and the full `fetchTranscript` pipeline -/

/-- The `TranscriptConfig` interface. -/
structure TranscriptConfig where
  lang : Option String := none

/-- An HTTP request as issued by the source's `fetch` calls. -/
structure HttpRequest where
  method : String
  url : String
  headers : List (String × String)
  body : Option String
deriving DecidableEq

/-- The parts of a `fetch` response the source observes: `ok` and the
text body (`.json()` is `JSON.parse` applied to the body). -/
structure HttpResponse where
  ok : Bool
  body : String
deriving DecidableEq

/-- The fixed `USER_AGENT` constant of the source. -/
def USER_AGENT : String :=
  "Mozilla/5.0 (Macintosh; Intel Mac OS X 10_15_4) AppleWebKit/537.36 (KHTML, like Gecko) Chrome/85.0.4183.83 Safari/537.36,gzip(gfe)"

/-- `config?.lang` as a truthy value: the configured language when it is
set and non-empty (`&&` and the ternary at lines 82/130/144/153/194/203
test truthiness, so an empty string behaves like an absent language
there). -/
def langTruthyOf (cfg : TranscriptConfig) : Option String :=
  match cfg.lang with
  | some l => if l.isEmpty then none else some l
  | none => none

/-- The spread `...(config?.lang && \x7b 'Accept-Language': config.lang \x7d)`. -/
def langHeader (cfg : TranscriptConfig) : List (String × String) :=
  match langTruthyOf cfg with
  | some l => [("Accept-Language", l)]
  | none => []

/-- The watch-page request (lines 78-86). -/
def watchReq (identifier : String) (cfg : TranscriptConfig) : HttpRequest :=
  { method := "GET"
    url := "https://www.youtube.com/watch?v=" ++ identifier
    headers := langHeader cfg ++ [("User-Agent", USER_AGENT)]
    body := none }

/-- The primary track-content request (lines 151-156). -/
def trackReq (u : String) (cfg : TranscriptConfig) : HttpRequest :=
  { method := "GET"
    url := u
    headers := langHeader cfg ++ [("User-Agent", USER_AGENT)]
    body := none }

/-- Result of one `fetchTranscript` call: a fulfilled promise with the
segment list, a rejection with one of the library's own error classes, or
a rejection with a raw runtime exception (`TypeError` from a property
access on `undefined`/`null`, or `fetch` called with a non-string URL
value). -/
inductive FetchOutcome where
  | success (segments : List TranscriptSegment)
  | domainError (e : TranscriptError)
  | runtimeError (message : String)

/-- Lines 126-149 of the source: the `'captionTracks' in captions` check,
the language-availability check, and the selection of `transcriptURL`.
Returns the URL value together with the already-resolved segment `lang`
value (line 234; when a language is configured the nullish coalescing
never evaluates its right operand, hence the `.undefined` placeholder). -/
def primarySelect (captions : JsValue) (cfg : TranscriptConfig) (videoIdInput : String) :
    Except FetchOutcome (JsValue × JsValue) :=
  match jsInCheck captions "captionTracks" with
  | .error m => .error (.runtimeError m)
  | .ok false => .error (.domainError (.notAvailable videoIdInput))
  | .ok true =>
    let tracks := jsGetPerm captions "captionTracks"
    match langTruthyOf cfg with
    | some l =>
      match tracks with
      | .arr ts =>
        if ts.any (fun t => jsStrEq (jsGetPerm t "languageCode") l) then
          match ts.find? (fun t => jsStrEq (jsGetPerm t "languageCode") l) with
          | some tr =>
            match jsGetSafe tr "baseUrl" with
            | .ok u => .ok (u, segmentLang cfg.lang .undefined)
            | .error m => .error (.runtimeError m)
          | none => .error (.runtimeError "TypeError")
        else
          .error (.domainError (.notAvailableLanguage l
            (ts.map (fun t => jsGetPerm t "languageCode")) videoIdInput))
      | _ => .error (.runtimeError "TypeError")
    | none =>
      match jsIndex0 tracks with
      | .error m => .error (.runtimeError m)
      | .ok t0 =>
        match jsGetSafe t0 "baseUrl" with
        | .ok u => .ok (u, segmentLang cfg.lang t0)
        | .error m => .error (.runtimeError m)

/-- Hexadecimal digit (lowercase), for `JSON.stringify` escapes. -/
def hexDigitChar (n : Nat) : Char :=
  if n < 10 then Char.ofNat ('0'.toNat + n) else Char.ofNat ('a'.toNat + (n - 10))

/-- Four-digit lowercase hexadecimal rendering. -/
def hex4 (n : Nat) : String :=
  String.mk [hexDigitChar (n / 4096 % 16), hexDigitChar (n / 256 % 16),
             hexDigitChar (n / 16 % 16), hexDigitChar (n % 16)]

/-- `JSON.stringify` escaping of one string character. -/
def jsonEscapeChar (c : Char) : String :=
  if c = '"' then "\\\""
  else if c = '\\' then "\\\\"
  else if c = '\n' then "\\n"
  else if c = '\r' then "\\r"
  else if c = '\t' then "\\t"
  else if c = '\x08' then "\\b"
  else if c = '\x0c' then "\\f"
  else if c.val < 0x20 then "\\u" ++ hex4 c.val.toNat
  else String.mk [c]

/-- `JSON.stringify` of a string value. -/
def jsonQuote (s : String) : String :=
  "\"" ++ String.join (s.toList.map jsonEscapeChar) ++ "\""

/-- The `JSON.stringify`-ed body of the InnerTube request (lines 176-184):
keys in insertion order, the identifier quoted and escaped. -/
def playerRequestBody (identifier : String) : String :=
  "\x7b\"context\":\x7b\"client\":\x7b\"clientName\":\"WEB\",\"clientVersion\":\"2.20241211.01.00\"\x7d\x7d,\"videoId\":"
    ++ jsonQuote identifier ++ "\x7d"

/-- The InnerTube player endpoint URL (line 167). -/
def INNERTUBE_URL : String := "https://www.youtube.com/youtubei/v1/player"

/-- The InnerTube POST request (lines 166-186). -/
def innerTubeReq (identifier : String) : HttpRequest :=
  { method := "POST"
    url := INNERTUBE_URL
    headers := [("Content-Type", "application/json"), ("User-Agent", USER_AGENT),
                ("Referer", "https://www.youtube.com/watch?v=" ++ identifier),
                ("Origin", "https://www.youtube.com")]
    body := some (playerRequestBody identifier) }

/-- The secondary track-content request (lines 201-207). -/
def secondTrackReq (u : String) (cfg : TranscriptConfig) (identifier : String) :
    HttpRequest :=
  { method := "GET"
    url := u
    headers := langHeader cfg ++ [("User-Agent", USER_AGENT),
               ("Referer", "https://www.youtube.com/watch?v=" ++ identifier)]
    body := none }

/-- Track selection inside the InnerTube fallback (lines 193-199 and the
`lang` resolution of line 217).  Unlike the primary path there is no
language-availability pre-check: a missing language makes `find` return
`undefined` and the `.baseUrl` access throw, which the surrounding
`catch` suppresses — hence errors are plain `TypeError` strings here. -/
def innerTubeSelect (tracks : JsValue) (cfg : TranscriptConfig) :
    Except String (JsValue × JsValue) :=
  match langTruthyOf cfg with
  | some l =>
    match tracks with
    | .arr ts =>
      match ts.find? (fun t => jsStrEq (jsGetPerm t "languageCode") l) with
      | some tr =>
        match jsGetSafe tr "baseUrl" with
        | .ok u => .ok (u, segmentLang cfg.lang .undefined)
        | .error m => .error m
      | none => .error "TypeError"
    | _ => .error "TypeError"
  | none =>
    match jsIndex0 tracks with
    | .error m => .error m
    | .ok t0 =>
      match jsGetSafe t0 "baseUrl" with
      | .ok u => .ok (u, segmentLang cfg.lang t0)
      | .error m => .error m

/-- The InnerTube fallback pipeline (the `try` at lines 165-225): POST to
the player endpoint, parse the JSON response, project the captions
renderer through optional chains, check truthiness of it and of its
`captionTracks`, select a track, fetch its content, and parse a non-empty
body.  Every failure — non-success status, unparseable JSON, missing or
falsy caption data, any `TypeError`, a failed content fetch, or an empty
content body — yields `none`, which the caller turns into
`YoutubeTranscriptNotAvailableError` (line 226).  Also returns the
requests issued, in order. -/
def innerTubePipeline (net : HttpRequest → HttpResponse) (identifier : String)
    (cfg : TranscriptConfig) : Option (List TranscriptSegment) × List HttpRequest :=
  let req := innerTubeReq identifier
  let resp := net req
  if resp.ok then
    match parseJson resp.body.toList with
    | none => (none, [req])
    | some data =>
      let itc := jsOptField (jsOptField data "captions") "playerCaptionsTracklistRenderer"
      if jsTruthy itc && jsTruthy (jsGetPerm itc "captionTracks") then
        match innerTubeSelect (jsGetPerm itc "captionTracks") cfg with
        | .error _ => (none, [req])
        | .ok (url, langVal) =>
          match url with
          | .str u =>
            let req2 := secondTrackReq u cfg identifier
            let resp2 := net req2
            if resp2.ok && !resp2.body.isEmpty then
              (some (parseTimedText resp2.body langVal), [req, req2])
            else (none, [req, req2])
          | _ => (none, [req])
      else (none, [req])
  else (none, [req])

/-- `YoutubeTranscript.fetchTranscript`, as a pure function of a
deterministic network (`net` maps each request to its response; a
response is always produced — transport-level failures are not modelled).
Returns the outcome together with the requests issued, in order.  Thrown
errors caught inside the source's `try` blocks never appear in the
outcome; only what escapes `fetchTranscript` does. -/
def fetchTranscriptM (net : HttpRequest → HttpResponse) (videoId : String)
    (cfg : TranscriptConfig) : FetchOutcome × List HttpRequest :=
  match retrieveVideoId videoId with
  | .error e => (.domainError e, [])
  | .ok identifier =>
    let req1 := watchReq identifier cfg
    let captions :=
      match locateCaptions videoId (net req1).body.toList with
      | .ok v => v
      | _ => JsValue.null
    if !jsTruthy captions then (.domainError (.disabled videoId), [req1])
    else
      match primarySelect captions cfg videoId with
      | .error out => (out, [req1])
      | .ok (url, langVal) =>
        match url with
        | .str u =>
          let req2 := trackReq u cfg
          let resp2 := net req2
          if !resp2.ok then (.domainError (.notAvailable videoId), [req1, req2])
          else if resp2.body.isEmpty then
            match innerTubePipeline net identifier cfg with
            | (some segs, tr) => (.success segs, req1 :: req2 :: tr)
            | (none, tr) => (.domainError (.notAvailable videoId), req1 :: req2 :: tr)
          else (.success (parseTimedText resp2.body langVal), [req1, req2])
        | _ => (.runtimeError "TypeError", [req1])

/-! ## Discriminants used to state inequalities between outcomes -/

/-- The error class of a `TranscriptError` (its constructor). -/
inductive ErrKind where
  | base
  | tooManyRequests
  | videoUnavailable
  | disabled
  | notAvailable
  | notAvailableLanguage
deriving DecidableEq

/-- Constructor discriminant of a `TranscriptError`. -/
def kindOf : TranscriptError → ErrKind
  | .base _ => .base
  | .tooManyRequests => .tooManyRequests
  | .videoUnavailable _ => .videoUnavailable
  | .disabled _ => .disabled
  | .notAvailable _ => .notAvailable
  | .notAvailableLanguage _ _ _ => .notAvailableLanguage

/-- Discriminant of a `FetchOutcome`, with the error class when the
outcome is a domain error. -/
inductive OutcomeKind where
  | success
  | domainError (k : ErrKind)
  | runtimeError
deriving DecidableEq

/-- Constructor discriminant of a `FetchOutcome`. -/
def outcomeKind : FetchOutcome → OutcomeKind
  | .success _ => .success
  | .domainError e => .domainError (kindOf e)
  | .runtimeError _ => .runtimeError

/-- The `videoId` payload of a `TranscriptError`, when it has one. -/
def errVideoId : TranscriptError → Option String
  | .base _ => none
  | .tooManyRequests => none
  | .videoUnavailable v => some v
  | .disabled v => some v
  | .notAvailable v => some v
  | .notAvailableLanguage _ _ v => some v

/-! ## Concrete network stubs used by counterexamples and witnesses -/

/-- A watch-page body with a well-formed catalog of an `en` and an `fr`
track. -/
def pageHappy : String :=
  "x\"captions\":\x7b\"playerCaptionsTracklistRenderer\":\x7b\"captionTracks\":[\x7b\"languageCode\":\"en\",\"baseUrl\":\"https://tt\"\x7d,\x7b\"languageCode\":\"fr\",\"baseUrl\":\"https://uu\"\x7d]\x7d\x7d,\"videoDetails\":\x7b\x7dy"

/-- A timed-text document with two cues. -/
def cueBody : String :=
  "<text start=\"1.0\" dur=\"2.5\">Hello</text><text start=\"3.5\" dur=\"1.0\">World</text>"

/-- Network stub: watch page with the two-track catalog, both track URLs
serving timed text. -/
def stubHappy : HttpRequest → HttpResponse := fun r =>
  if r.url = "https://www.youtube.com/watch?v=ABCDEFGHIJK" then ⟨true, pageHappy⟩
  else if r.url = "https://tt" then ⟨true, cueBody⟩
  else if r.url = "https://uu" then ⟨true, "<text start=\"0\" dur=\"1\">Bonjour</text>"⟩
  else ⟨false, ""⟩

/-- Network stub: every response is a CAPTCHA interstitial page with no
`"captions":` marker. -/
def stubRecaptcha : HttpRequest → HttpResponse := fun _ =>
  ⟨true, "<html>class=\"g-recaptcha\"</html>"⟩

/-- A watch-page body whose catalog has an empty `captionTracks` list. -/
def pageEmptyTracks : String :=
  "x\"captions\":\x7b\"playerCaptionsTracklistRenderer\":\x7b\"captionTracks\":[]\x7d\x7d,\"videoDetails\":\x7b\x7dy"

/-- Network stub serving the empty-catalog page. -/
def stubEmptyTracks : HttpRequest → HttpResponse := fun _ => ⟨true, pageEmptyTracks⟩

/-- Network stub: a good catalog whose track URL serves an empty body,
and a failing InnerTube endpoint. -/
def stubEmptyBody : HttpRequest → HttpResponse := fun r =>
  if r.url = "https://www.youtube.com/watch?v=ABCDEFGHIJK" then ⟨true, pageHappy⟩
  else if r.url = "https://tt" then ⟨true, ""⟩
  else ⟨false, ""⟩

/-! ## Helper lemmas -/

/-- Right unit of `firstSome`. -/
theorem firstSome_none_right {α : Type} (x : Option α) : firstSome x none = x := by
  cases x <;> rfl

/-- `breakOnSeq` finds something exactly when the separator occurs as an
infix. -/
theorem breakOnSeq_isSome_iff (sep cs : List Char) :
    (breakOnSeq sep cs).isSome ↔ sep <:+: cs := by
  induction cs with
  | nil =>
    cases sep with
    | nil => simp [breakOnSeq]
    | cons s ss => simp [breakOnSeq, List.isPrefixOf, List.infix_nil]
  | cons c cs ih =>
    rw [List.infix_cons_iff]
    by_cases hp : sep.isPrefixOf (c :: cs)
    · simp only [breakOnSeq, hp, if_true, Option.isSome_some, true_iff]
      exact Or.inl (List.isPrefixOf_iff_prefix.mp hp)
    · have hp2 : sep.isPrefixOf (c :: cs) = false := by
        cases h : sep.isPrefixOf (c :: cs)
        · rfl
        · exact absurd h hp
      have hnp : ¬ sep <+: (c :: cs) := fun hcon =>
        hp (List.isPrefixOf_iff_prefix.mpr hcon)
      simp only [breakOnSeq, hp2, Bool.false_eq_true, if_false]
      cases h : breakOnSeq sep cs with
      | none =>
        rw [h] at ih
        simp at ih
        simp [hnp, ih]
      | some p =>
        rw [h] at ih
        simp at ih
        simp [ih]

/-- The `jsTruthy` value of `null`. -/
theorem jsTruthy_null : jsTruthy JsValue.null = false := rfl

/-! ## Claim C1 -/

/-- Claim C1, counterexample.  For the CAPTCHA page body (which contains
`class="g-recaptcha"` and no `"captions":` marker), `fetchTranscript`
fails with `YoutubeTranscriptDisabledError`, not
`YoutubeTranscriptTooManyRequestError`: the claim as stated is false on
the code. -/
theorem c1_counterexample :
    (fetchTranscriptM stubRecaptcha "ABCDEFGHIJK" ⟨none⟩).1 =
      .domainError (.disabled "ABCDEFGHIJK") ∧
    outcomeKind (fetchTranscriptM stubRecaptcha "ABCDEFGHIJK" ⟨none⟩).1 ≠
      .domainError .tooManyRequests ∧
    containsSeq RECAPTCHA_MARKER
      ((stubRecaptcha (watchReq "ABCDEFGHIJK" ⟨none⟩)).body.toList) = true ∧
    containsSeq CAPTIONS_SPLIT
      ((stubRecaptcha (watchReq "ABCDEFGHIJK" ⟨none⟩)).body.toList) = false := by
  refine ⟨rfl, ?_, rfl, rfl⟩
  have h : outcomeKind (fetchTranscriptM stubRecaptcha "ABCDEFGHIJK" ⟨none⟩).1 =
      OutcomeKind.domainError .disabled := rfl
  rw [h]
  decide

/-- Claim C1, amended.  For every watch-page body that does not contain
the `"captions":` marker but does contain `class="g-recaptcha"`, the
HTML-phase classification does produce `TooManyRequestsError` (line 93),
but the surrounding catch-all (line 115) swallows it, so `fetchTranscript`
fails with `YoutubeTranscriptDisabledError` instead. -/
theorem c1_amended (net : HttpRequest → HttpResponse) (videoId identifier : String)
    (cfg : TranscriptConfig)
    (hid : retrieveVideoId videoId = .ok identifier)
    (hnomark : ¬ CAPTIONS_SPLIT <:+: (net (watchReq identifier cfg)).body.toList)
    (hrec : containsSeq RECAPTCHA_MARKER (net (watchReq identifier cfg)).body.toList = true) :
    (fetchTranscriptM net videoId cfg).1 = .domainError (.disabled videoId) ∧
    locateCaptions videoId (net (watchReq identifier cfg)).body.toList =
      .classified .tooManyRequests := by
  have hbreak : breakOnSeq CAPTIONS_SPLIT (net (watchReq identifier cfg)).body.toList
      = none := by
    cases h : breakOnSeq CAPTIONS_SPLIT (net (watchReq identifier cfg)).body.toList with
    | none => rfl
    | some p => exact absurd ((breakOnSeq_isSome_iff _ _).mp (by rw [h]; rfl)) hnomark
  have hsplit : splitSecondPart (net (watchReq identifier cfg)).body.toList = none := by
    unfold splitSecondPart
    rw [hbreak]
  have hloc : locateCaptions videoId (net (watchReq identifier cfg)).body.toList =
      .classified .tooManyRequests := by
    unfold locateCaptions
    rw [hsplit, hrec]
    rfl
  refine ⟨?_, hloc⟩
  unfold fetchTranscriptM
  rw [hid]
  simp only [hloc]
  rfl

/-- Claim C1, witness for the amended theorem at the concrete CAPTCHA
stub. -/
theorem c1_witness :
    (fetchTranscriptM stubRecaptcha "XAMPLEVIDEO" ⟨none⟩).1 =
      .domainError (.disabled "XAMPLEVIDEO") :=
  (c1_amended stubRecaptcha "XAMPLEVIDEO" "XAMPLEVIDEO" ⟨none⟩ rfl
    (by rw [show (stubRecaptcha (watchReq "XAMPLEVIDEO" ⟨none⟩)).body.toList =
          "<html>class=\"g-recaptcha\"</html>".toList from rfl]
        intro hcon
        exact absurd ((breakOnSeq_isSome_iff _ _).mpr hcon) (by decide))
    rfl).1

/-! ## Claim C2 -/

/-- Claim C2: code bug.  When the discovered catalog's `captionTracks`
list is empty and no language is configured, line 143 evaluates
`captions.captionTracks[0].baseUrl`, a property access on `undefined`,
and `fetchTranscript` rejects with a raw `TypeError` — not with a typed
variant of `YoutubeTranscriptError` as the specification's propagation
policy requires. -/
theorem c2_code_bug :
    (fetchTranscriptM stubEmptyTracks "ABCDEFGHIJK" ⟨none⟩).1 =
      .runtimeError "TypeError" ∧
    (∀ e : TranscriptError,
      (fetchTranscriptM stubEmptyTracks "ABCDEFGHIJK" ⟨none⟩).1 ≠ .domainError e) ∧
    locateCaptions "ABCDEFGHIJK" pageEmptyTracks.toList =
      .ok (.obj [("captionTracks", .arr [])]) := by
  refine ⟨rfl, ?_, rfl⟩
  intro e h
  have h1 : (fetchTranscriptM stubEmptyTracks "ABCDEFGHIJK" ⟨none⟩).1 =
      .runtimeError "TypeError" := rfl
  rw [h1] at h
  exact FetchOutcome.noConfusion h

/-! ## Claim C7 -/

/-- Claim C7, counterexample.  On the unparseable input `"not a url"`,
`retrieveVideoId` throws the base class `YoutubeTranscriptError` itself
(message `Impossible to retrieve Youtube video ID.`), not a dedicated
`InvalidIdentifierError` variant: no such subclass exists in the code. -/
theorem c7_counterexample :
    retrieveVideoId "not a url" =
      .error (.base "Impossible to retrieve Youtube video ID.") ∧
    isDedicatedVariant (.base "Impossible to retrieve Youtube video ID.") = false :=
  ⟨rfl, rfl⟩

/-- Claim C7, amended.  Every input that is not 11 characters long and
matches no known URL shape fails with the generic base error
`YoutubeTranscriptError` carrying the message
`Impossible to retrieve Youtube video ID.` — distinguishable from the
dedicated subclasses only as the base kind. -/
theorem c7_amended (s : String) (hlen : s.length ≠ 11)
    (hscan : scanYt s.toList = none) :
    retrieveVideoId s = .error (.base "Impossible to retrieve Youtube video ID.") ∧
    isDedicatedVariant (.base "Impossible to retrieve Youtube video ID.") = false := by
  refine ⟨?_, rfl⟩
  unfold retrieveVideoId
  rw [if_neg hlen, hscan]

/-- Claim C7, witness for the amended theorem. -/
theorem c7_witness :
    retrieveVideoId "youtube video" =
      .error (.base "Impossible to retrieve Youtube video ID.") ∧
    isDedicatedVariant (.base "Impossible to retrieve Youtube video ID.") = false :=
  c7_amended "youtube video" (by decide) rfl

/-! ## Claim C9 -/

/-- Claim C9 (confirmed).  `fetchTranscript` is a pure function of its
input, configuration, and the network's responses: two runs against
networks that answer every request identically produce identical
outcomes and identical request traces. -/
theorem c9_determinism (net1 net2 : HttpRequest → HttpResponse) (videoId : String)
    (cfg : TranscriptConfig) (h : ∀ r, net1 r = net2 r) :
    fetchTranscriptM net1 videoId cfg = fetchTranscriptM net2 videoId cfg := by
  have heq : net1 = net2 := funext h
  rw [heq]

/-- A stub that is syntactically different from `stubHappy` but answers
every request identically. -/
def stubHappyB : HttpRequest → HttpResponse := fun r =>
  if r.url = "https://definitely-not-used" then ⟨false, ""⟩ else stubHappy r

/-- Claim C9, witness: two extensionally equal stubs produce the same
run. -/
theorem c9_witness :
    fetchTranscriptM stubHappyB "ABCDEFGHIJK" ⟨none⟩ =
      fetchTranscriptM stubHappy "ABCDEFGHIJK" ⟨none⟩ :=
  c9_determinism stubHappyB stubHappy "ABCDEFGHIJK" ⟨none⟩ (fun r => by
    unfold stubHappyB stubHappy
    by_cases h : r.url = "https://definitely-not-used"
    · simp +decide [h]
    · simp [h])

/-- The trace of the InnerTube pipeline always starts with the POST
request, whatever the network does. -/
theorem innerTube_trace_head (net : HttpRequest → HttpResponse) (identifier : String)
    (cfg : TranscriptConfig) :
    ∃ rest, (innerTubePipeline net identifier cfg).2 = innerTubeReq identifier :: rest := by
  simp only [innerTubePipeline]
  repeat' split
  all_goals exact ⟨_, rfl⟩

/-- Run lemma: a successful primary phase whose track fetch returns an
empty body hands the rest of the call to the InnerTube pipeline — the
result is the fallback's result (or `YoutubeTranscriptNotAvailableError`)
and the trace is the two primary requests followed by the fallback's
requests. -/
theorem fetch_run_fallback (net : HttpRequest → HttpResponse)
    (videoId identifier : String) (cfg : TranscriptConfig) (captions : JsValue)
    (u : String) (langVal : JsValue)
    (hid : retrieveVideoId videoId = .ok identifier)
    (hcap : locateCaptions videoId (net (watchReq identifier cfg)).body.toList = .ok captions)
    (htr : jsTruthy captions = true)
    (hsel : primarySelect captions cfg videoId = .ok (.str u, langVal))
    (hresp : net (trackReq u cfg) = ⟨true, ""⟩) :
    fetchTranscriptM net videoId cfg =
      ((match (innerTubePipeline net identifier cfg).1 with
        | some segs => .success segs
        | none => .domainError (.notAvailable videoId)),
       watchReq identifier cfg :: trackReq u cfg ::
         (innerTubePipeline net identifier cfg).2) := by
  unfold fetchTranscriptM
  rw [hid]
  simp only [hcap, htr, hsel, hresp]
  rcases h : innerTubePipeline net identifier cfg with ⟨res, tr⟩
  have he : "".isEmpty = true := rfl
  cases res <;> simp [h, he]

/-- Run lemma: a successful primary phase whose track fetch returns a
non-empty body parses that body and returns. -/
theorem fetch_run_success (net : HttpRequest → HttpResponse)
    (videoId identifier : String) (cfg : TranscriptConfig) (captions : JsValue)
    (u : String) (langVal : JsValue) (b : String)
    (hid : retrieveVideoId videoId = .ok identifier)
    (hcap : locateCaptions videoId (net (watchReq identifier cfg)).body.toList = .ok captions)
    (htr : jsTruthy captions = true)
    (hsel : primarySelect captions cfg videoId = .ok (.str u, langVal))
    (hresp : net (trackReq u cfg) = ⟨true, b⟩)
    (hb : b.isEmpty = false) :
    fetchTranscriptM net videoId cfg =
      (.success (parseTimedText b langVal), [watchReq identifier cfg, trackReq u cfg]) := by
  unfold fetchTranscriptM
  rw [hid]
  simp only [hcap, htr, hsel, hresp, hb]
  simp

/-! ## Claim C3 -/

/-- Claim C3 (confirmed).  When the primary track fetch succeeds with an
empty body, the run continues into the InnerTube pipeline — whose trace
always begins with the POST request — and if that pipeline fails its
result is `none`, making the final error
`YoutubeTranscriptNotAvailableError` (the spec's `NoCaptionsError`), not
the original cause.  The remaining conjuncts show that each enumerated
secondary failure mode (non-success status, non-JSON body, missing or
falsy caption-track data) indeed yields `none`. -/
theorem c3_fallback_semantics :
    (∀ (net : HttpRequest → HttpResponse) (videoId identifier : String)
        (cfg : TranscriptConfig) (captions : JsValue) (u : String) (langVal : JsValue),
      retrieveVideoId videoId = .ok identifier →
      locateCaptions videoId (net (watchReq identifier cfg)).body.toList = .ok captions →
      jsTruthy captions = true →
      primarySelect captions cfg videoId = .ok (.str u, langVal) →
      net (trackReq u cfg) = ⟨true, ""⟩ →
      (innerTubePipeline net identifier cfg).1 = none →
      (fetchTranscriptM net videoId cfg).1 = .domainError (.notAvailable videoId) ∧
      innerTubeReq identifier ∈ (fetchTranscriptM net videoId cfg).2) ∧
    (∀ (net : HttpRequest → HttpResponse) (identifier : String) (cfg : TranscriptConfig),
      (net (innerTubeReq identifier)).ok = false →
      (innerTubePipeline net identifier cfg).1 = none) ∧
    (∀ (net : HttpRequest → HttpResponse) (identifier : String) (cfg : TranscriptConfig),
      parseJson (net (innerTubeReq identifier)).body.toList = none →
      (innerTubePipeline net identifier cfg).1 = none) ∧
    (∀ (net : HttpRequest → HttpResponse) (identifier : String) (cfg : TranscriptConfig)
        (data : JsValue),
      parseJson (net (innerTubeReq identifier)).body.toList = some data →
      jsTruthy (jsOptField (jsOptField data "captions")
        "playerCaptionsTracklistRenderer") = false →
      (innerTubePipeline net identifier cfg).1 = none) := by
  refine ⟨?_, ?_, ?_, ?_⟩
  · intro net videoId identifier cfg captions u langVal hid hcap htr hsel hresp hfail
    have hrun := fetch_run_fallback net videoId identifier cfg captions u langVal
      hid hcap htr hsel hresp
    obtain ⟨rest, hhead⟩ := innerTube_trace_head net identifier cfg
    constructor
    · rw [hrun, hfail]
    · rw [hrun]
      simp only [hhead]
      exact List.mem_cons_of_mem _ (List.mem_cons_of_mem _ (List.mem_cons_self _ _))
  · intro net identifier cfg hok
    simp only [innerTubePipeline, hok]
    simp
  · intro net identifier cfg hjson
    simp only [innerTubePipeline, hjson]
    split <;> simp
  · intro net identifier cfg data hjson hfalsy
    simp only [innerTubePipeline, hjson, hfalsy]
    split <;> simp

/-- Claim C3, witness: the concrete empty-body stub, whose InnerTube POST
fails, ends in `YoutubeTranscriptNotAvailableError` with the POST in the
trace. -/
theorem c3_witness :
    (fetchTranscriptM stubEmptyBody "ABCDEFGHIJK" ⟨none⟩).1 =
      .domainError (.notAvailable "ABCDEFGHIJK") ∧
    innerTubeReq "ABCDEFGHIJK" ∈ (fetchTranscriptM stubEmptyBody "ABCDEFGHIJK" ⟨none⟩).2 :=
  c3_fallback_semantics.1 stubEmptyBody "ABCDEFGHIJK" "ABCDEFGHIJK" ⟨none⟩
    (.obj [("captionTracks", .arr
      [.obj [("languageCode", .str "en"), ("baseUrl", .str "https://tt")],
       .obj [("languageCode", .str "fr"), ("baseUrl", .str "https://uu")]])])
    "https://tt" (.str "en") rfl rfl rfl rfl rfl rfl

/-! ## Claim C10 -/

/-- Claim C10 (confirmed).  First conjunct: if the primary track fetch
returns an empty body and the secondary InnerTube pipeline gets all the
way to fetching its own track content but that content is also empty,
the pipeline yields `none` and the run fails with
`YoutubeTranscriptNotAvailableError` — the secondary path never returns
an empty segment list.  Second conjunct, the contrast: on the primary
path a successful non-empty body with no `RE_XML_TRANSCRIPT` matches
yields a successful empty list, not an error. -/
theorem c10_empty_secondary_content :
    (∀ (net : HttpRequest → HttpResponse) (videoId identifier : String)
        (cfg : TranscriptConfig) (captions data : JsValue) (u u2 : String)
        (langVal langVal2 : JsValue),
      retrieveVideoId videoId = .ok identifier →
      locateCaptions videoId (net (watchReq identifier cfg)).body.toList = .ok captions →
      jsTruthy captions = true →
      primarySelect captions cfg videoId = .ok (.str u, langVal) →
      net (trackReq u cfg) = ⟨true, ""⟩ →
      (net (innerTubeReq identifier)).ok = true →
      parseJson (net (innerTubeReq identifier)).body.toList = some data →
      jsTruthy (jsOptField (jsOptField data "captions")
        "playerCaptionsTracklistRenderer") = true →
      jsTruthy (jsGetPerm (jsOptField (jsOptField data "captions")
        "playerCaptionsTracklistRenderer") "captionTracks") = true →
      innerTubeSelect (jsGetPerm (jsOptField (jsOptField data "captions")
        "playerCaptionsTracklistRenderer") "captionTracks") cfg =
        .ok (.str u2, langVal2) →
      net (secondTrackReq u2 cfg identifier) = ⟨true, ""⟩ →
      (innerTubePipeline net identifier cfg).1 = none ∧
      (fetchTranscriptM net videoId cfg).1 = .domainError (.notAvailable videoId)) ∧
    (∀ (net : HttpRequest → HttpResponse) (videoId identifier : String)
        (cfg : TranscriptConfig) (captions : JsValue) (u : String) (langVal : JsValue)
        (b : String),
      retrieveVideoId videoId = .ok identifier →
      locateCaptions videoId (net (watchReq identifier cfg)).body.toList = .ok captions →
      jsTruthy captions = true →
      primarySelect captions cfg videoId = .ok (.str u, langVal) →
      net (trackReq u cfg) = ⟨true, b⟩ →
      b.isEmpty = false →
      xmlMatches b.toList = [] →
      (fetchTranscriptM net videoId cfg).1 = .success []) := by
  constructor
  · intro net videoId identifier cfg captions data u u2 langVal langVal2
      hid hcap htr hsel hresp hok hjson hitc htracks hsel2 hresp2
    have he : "".isEmpty = true := rfl
    have hpipe : (innerTubePipeline net identifier cfg).1 = none := by
      simp only [innerTubePipeline, hok, hjson, hitc, htracks, hsel2, hresp2, he]
      simp
    refine ⟨hpipe, ?_⟩
    have hrun := fetch_run_fallback net videoId identifier cfg captions u langVal
      hid hcap htr hsel hresp
    rw [hrun, hpipe]
  · intro net videoId identifier cfg captions u langVal b
      hid hcap htr hsel hresp hb hmatch
    have hrun := fetch_run_success net videoId identifier cfg captions u langVal b
      hid hcap htr hsel hresp hb
    rw [hrun]
    unfold parseTimedText
    rw [hmatch]
    rfl

/-- An InnerTube player response with one `en` track. -/
def pageInnerTube : String :=
  "\x7b\"captions\":\x7b\"playerCaptionsTracklistRenderer\":\x7b\"captionTracks\":[\x7b\"languageCode\":\"en\",\"baseUrl\":\"https://it\"\x7d]\x7d\x7d\x7d"

/-- Network stub: empty primary track body, an InnerTube catalog whose
own track content is also empty. -/
def stubSecondaryEmpty : HttpRequest → HttpResponse := fun r =>
  if r.url = "https://www.youtube.com/watch?v=ABCDEFGHIJK" then ⟨true, pageHappy⟩
  else if r.url = "https://tt" then ⟨true, ""⟩
  else if r.url = INNERTUBE_URL then ⟨true, pageInnerTube⟩
  else if r.url = "https://it" then ⟨true, ""⟩
  else ⟨false, ""⟩

/-- Network stub: primary track body non-empty but without any
`RE_XML_TRANSCRIPT` match. -/
def stubNoCues : HttpRequest → HttpResponse := fun r =>
  if r.url = "https://www.youtube.com/watch?v=ABCDEFGHIJK" then ⟨true, pageHappy⟩
  else if r.url = "https://tt" then ⟨true, "no cues in this body"⟩
  else ⟨false, ""⟩

/-- Claim C10, witness: both conjuncts at concrete stubs. -/
theorem c10_witness :
    ((innerTubePipeline stubSecondaryEmpty "ABCDEFGHIJK" ⟨none⟩).1 = none ∧
     (fetchTranscriptM stubSecondaryEmpty "ABCDEFGHIJK" ⟨none⟩).1 =
       .domainError (.notAvailable "ABCDEFGHIJK")) ∧
    (fetchTranscriptM stubNoCues "ABCDEFGHIJK" ⟨none⟩).1 = .success [] :=
  ⟨c10_empty_secondary_content.1 stubSecondaryEmpty "ABCDEFGHIJK" "ABCDEFGHIJK" ⟨none⟩
    (.obj [("captionTracks", .arr
      [.obj [("languageCode", .str "en"), ("baseUrl", .str "https://tt")],
       .obj [("languageCode", .str "fr"), ("baseUrl", .str "https://uu")]])])
    (.obj [("captions", .obj [("playerCaptionsTracklistRenderer", .obj [("captionTracks",
      .arr [.obj [("languageCode", .str "en"), ("baseUrl", .str "https://it")]])])])])
    "https://tt" "https://it" (.str "en") (.str "en")
    rfl rfl rfl rfl rfl rfl rfl rfl rfl rfl rfl,
   c10_empty_secondary_content.2 stubNoCues "ABCDEFGHIJK" "ABCDEFGHIJK" ⟨none⟩
    (.obj [("captionTracks", .arr
      [.obj [("languageCode", .str "en"), ("baseUrl", .str "https://tt")],
       .obj [("languageCode", .str "fr"), ("baseUrl", .str "https://uu")]])])
    "https://tt" (.str "en") "no cues in this body"
    rfl rfl rfl rfl rfl rfl rfl⟩

/-! ## Claim C8 -/

/-- Claim C8, counterexample.  The secondary discovery POST goes to
`https://www.youtube.com/youtubei/v1/player` (line 167), not to
`https://www.youtubei/v1/player` as the claim states. -/
theorem c8_counterexample :
    (innerTubePipeline (fun _ => ⟨false, ""⟩) "ABCDEFGHIJK" ⟨none⟩).2 =
      [innerTubeReq "ABCDEFGHIJK"] ∧
    (innerTubeReq "ABCDEFGHIJK").url = "https://www.youtube.com/youtubei/v1/player" ∧
    (innerTubeReq "ABCDEFGHIJK").url ≠ "https://www.youtubei/v1/player" := by
  refine ⟨rfl, rfl, ?_⟩
  decide

/-- Claim C8, amended.  Whenever the secondary discovery path runs, its
first request is a POST to exactly
`https://www.youtube.com/youtubei/v1/player` with JSON body
`\x7b"context":\x7b"client":\x7b"clientName":"WEB","clientVersion":"2.20241211.01.00"\x7d\x7d,"videoId":<id>\x7d`
(the identifier `JSON.stringify`-quoted), plus the
`Content-Type`/`User-Agent`/`Referer`/`Origin` headers of lines 170-175. -/
theorem c8_amended (net : HttpRequest → HttpResponse) (identifier : String)
    (cfg : TranscriptConfig) :
    (innerTubePipeline net identifier cfg).2.head? = some (innerTubeReq identifier) ∧
    innerTubeReq identifier =
      { method := "POST"
        url := "https://www.youtube.com/youtubei/v1/player"
        headers := [("Content-Type", "application/json"), ("User-Agent", USER_AGENT),
                    ("Referer", "https://www.youtube.com/watch?v=" ++ identifier),
                    ("Origin", "https://www.youtube.com")]
        body := some
          ("\x7b\"context\":\x7b\"client\":\x7b\"clientName\":\"WEB\",\"clientVersion\":\"2.20241211.01.00\"\x7d\x7d,\"videoId\":"
            ++ jsonQuote identifier ++ "\x7d") } := by
  constructor
  · obtain ⟨rest, h⟩ := innerTube_trace_head net identifier cfg
    rw [h]
    rfl
  · rfl

/-- Claim C8, witness: at a concrete identifier the POST body parses back
to exactly the claimed JSON object. -/
theorem c8_witness :
    (innerTubePipeline stubSecondaryEmpty "ABCDEFGHIJK" ⟨none⟩).2.head? =
      some (innerTubeReq "ABCDEFGHIJK") ∧
    parseJson (playerRequestBody "ABCDEFGHIJK").toList =
      some (.obj [("context", .obj [("client", .obj
        [("clientName", .str "WEB"), ("clientVersion", .str "2.20241211.01.00")])]),
        ("videoId", .str "ABCDEFGHIJK")]) :=
  ⟨(c8_amended stubSecondaryEmpty "ABCDEFGHIJK" ⟨none⟩).1, rfl⟩

/-! ## Claim C4 -/

/-- A non-`undefined` property value implies the key is present (the
`in`-operator check). -/
theorem jsGetPerm_obj_key (fs : List (String × JsValue)) (k : String) (v : JsValue)
    (h : jsGetPerm (.obj fs) k = v) (hv : v ≠ .undefined) :
    fs.any (fun p => p.1 = k) = true := by
  simp only [jsGetPerm] at h
  cases hf : fs.find? (fun p => p.1 = k) with
  | none =>
    rw [hf] at h
    simp at h
    exact absurd h.symm hv
  | some q =>
    have hm := @List.mem_of_find?_eq_some _ (fun p => p.1 = k) q fs hf
    have hp := @List.find?_some _ (fun p => p.1 = k) q fs hf
    exact List.any_eq_true.mpr ⟨q, hm, hp⟩

/-- If a string is not the empty string its `isEmpty` is `false`. -/
theorem isEmpty_false_of_ne (l : String) (h : l ≠ "") : l.isEmpty = false := by
  cases hd : l.isEmpty
  · rfl
  · exact absurd ((String.isEmpty_iff l).mp hd) h

/-- Claim C4, counterexample.  When `fetchTranscript` is called with a
URL, the `LanguageNotAvailableError` carries the raw input URL, not the
canonical 11-character video identifier, so the claim's payload
description fails. -/
theorem c4_counterexample :
    (fetchTranscriptM stubHappy "https://www.youtube.com/watch?v=ABCDEFGHIJK"
        ⟨some "de"⟩).1 =
      .domainError (.notAvailableLanguage "de" [.str "en", .str "fr"]
        "https://www.youtube.com/watch?v=ABCDEFGHIJK") ∧
    retrieveVideoId "https://www.youtube.com/watch?v=ABCDEFGHIJK" =
      .ok "ABCDEFGHIJK" ∧
    "https://www.youtube.com/watch?v=ABCDEFGHIJK" ≠ "ABCDEFGHIJK" := by
  refine ⟨rfl, rfl, ?_⟩
  decide

/-- Claim C4, amended.  For every catalog object with a non-empty
`captionTracks` array: with a configured (truthy) language `l` matched by
no track, selection fails with `LanguageNotAvailableError` carrying `l`,
all `languageCode` values in catalog order, and the original input string
passed to `fetchTranscript`; with a match present, the first matching
track's `baseUrl` is selected (and the segment language is `l`); with no
language configured, the first track's `baseUrl` is selected (and the
segment language is its `languageCode`). -/
theorem c4_amended (captions : JsValue) (fs : List (String × JsValue))
    (ts : List JsValue) (cfg : TranscriptConfig) (input : String)
    (hobj : captions = .obj fs)
    (htracks : jsGetPerm captions "captionTracks" = .arr ts) :
    (∀ l, cfg.lang = some l → l ≠ "" →
      (∀ t ∈ ts, jsStrEq (jsGetPerm t "languageCode") l = false) →
      primarySelect captions cfg input =
        .error (.domainError (.notAvailableLanguage l
          (ts.map (fun t => jsGetPerm t "languageCode")) input))) ∧
    (∀ l tr trfs, cfg.lang = some l → l ≠ "" → tr = .obj trfs →
      ts.find? (fun t => jsStrEq (jsGetPerm t "languageCode") l) = some tr →
      primarySelect captions cfg input = .ok (jsGetPerm tr "baseUrl", .str l)) ∧
    (∀ t0 t0fs rest, cfg.lang = none → ts = t0 :: rest → t0 = .obj t0fs →
      primarySelect captions cfg input =
        .ok (jsGetPerm t0 "baseUrl", jsGetPerm t0 "languageCode")) := by
  have hkey : fs.any (fun p => p.1 = "captionTracks") = true :=
    jsGetPerm_obj_key fs "captionTracks" (.arr ts) (hobj ▸ htracks) (by intro h; cases h)
  rw [hobj] at htracks
  refine ⟨?_, ?_, ?_⟩
  · intro l hl hne hnm
    have hlt : langTruthyOf cfg = some l := by
      unfold langTruthyOf
      rw [hl]
      simp [isEmpty_false_of_ne l hne]
    have hanyf : ts.any (fun t => jsStrEq (jsGetPerm t "languageCode") l) = false := by
      rw [List.any_eq_false]
      intro t ht
      rw [hnm t ht]
      simp
    rw [hobj]
    simp only [primarySelect, jsInCheck, hkey, htracks, hlt]
    rw [hanyf]
    simp
  · intro l tr trfs hl hne htrobj hfind
    have hlt : langTruthyOf cfg = some l := by
      unfold langTruthyOf
      rw [hl]
      simp [isEmpty_false_of_ne l hne]
    have hanyt : ts.any (fun t => jsStrEq (jsGetPerm t "languageCode") l) = true :=
      List.any_eq_true.mpr ⟨tr,
        @List.mem_of_find?_eq_some _ (fun t => jsStrEq (jsGetPerm t "languageCode") l)
          tr ts hfind,
        @List.find?_some _ (fun t => jsStrEq (jsGetPerm t "languageCode") l) tr ts hfind⟩
    rw [hobj]
    simp only [primarySelect, jsInCheck, hkey, htracks, hlt]
    rw [hanyt, hfind, htrobj, hl]
    simp [segmentLang, jsGetSafe]
  · intro t0 t0fs rest hl hts ht0
    rw [hobj]
    simp only [primarySelect, jsInCheck, hkey, htracks, langTruthyOf, hl, hts]
    rw [ht0]
    simp [segmentLang, jsGetSafe, jsIndex0]

/-- Claim C4, witness: the spec's own example catalog
`[(en, urlA), (fr, urlB)]` in all three configurations. -/
theorem c4_witness :
    primarySelect (.obj [("captionTracks", .arr
        [.obj [("languageCode", .str "en"), ("baseUrl", .str "urlA")],
         .obj [("languageCode", .str "fr"), ("baseUrl", .str "urlB")]])])
      ⟨some "de"⟩ "vid" =
      .error (.domainError (.notAvailableLanguage "de" [.str "en", .str "fr"] "vid")) ∧
    primarySelect (.obj [("captionTracks", .arr
        [.obj [("languageCode", .str "en"), ("baseUrl", .str "urlA")],
         .obj [("languageCode", .str "fr"), ("baseUrl", .str "urlB")]])])
      ⟨some "fr"⟩ "vid" = .ok (.str "urlB", .str "fr") ∧
    primarySelect (.obj [("captionTracks", .arr
        [.obj [("languageCode", .str "en"), ("baseUrl", .str "urlA")],
         .obj [("languageCode", .str "fr"), ("baseUrl", .str "urlB")]])])
      ⟨none⟩ "vid" = .ok (.str "urlA", .str "en") := by
  refine ⟨?_, ?_, ?_⟩
  · have h := (c4_amended
      (.obj [("captionTracks", .arr
        [.obj [("languageCode", .str "en"), ("baseUrl", .str "urlA")],
         .obj [("languageCode", .str "fr"), ("baseUrl", .str "urlB")]])])
      [("captionTracks", .arr
        [.obj [("languageCode", .str "en"), ("baseUrl", .str "urlA")],
         .obj [("languageCode", .str "fr"), ("baseUrl", .str "urlB")]])]
      [.obj [("languageCode", .str "en"), ("baseUrl", .str "urlA")],
       .obj [("languageCode", .str "fr"), ("baseUrl", .str "urlB")]]
      ⟨some "de"⟩ "vid" rfl rfl).1 "de" rfl (by decide) (by decide)
    simpa using h
  · have h := (c4_amended
      (.obj [("captionTracks", .arr
        [.obj [("languageCode", .str "en"), ("baseUrl", .str "urlA")],
         .obj [("languageCode", .str "fr"), ("baseUrl", .str "urlB")]])])
      [("captionTracks", .arr
        [.obj [("languageCode", .str "en"), ("baseUrl", .str "urlA")],
         .obj [("languageCode", .str "fr"), ("baseUrl", .str "urlB")]])]
      [.obj [("languageCode", .str "en"), ("baseUrl", .str "urlA")],
       .obj [("languageCode", .str "fr"), ("baseUrl", .str "urlB")]]
      ⟨some "fr"⟩ "vid" rfl rfl).2.1 "fr"
      (.obj [("languageCode", .str "fr"), ("baseUrl", .str "urlB")])
      [("languageCode", .str "fr"), ("baseUrl", .str "urlB")] rfl (by decide) rfl rfl
    simpa using h
  · have h := (c4_amended
      (.obj [("captionTracks", .arr
        [.obj [("languageCode", .str "en"), ("baseUrl", .str "urlA")],
         .obj [("languageCode", .str "fr"), ("baseUrl", .str "urlB")]])])
      [("captionTracks", .arr
        [.obj [("languageCode", .str "en"), ("baseUrl", .str "urlA")],
         .obj [("languageCode", .str "fr"), ("baseUrl", .str "urlB")]])]
      [.obj [("languageCode", .str "en"), ("baseUrl", .str "urlA")],
       .obj [("languageCode", .str "fr"), ("baseUrl", .str "urlB")]]
      ⟨none⟩ "vid" rfl rfl).2.2
      (.obj [("languageCode", .str "en"), ("baseUrl", .str "urlA")])
      [("languageCode", .str "en"), ("baseUrl", .str "urlA")]
      [.obj [("languageCode", .str "fr"), ("baseUrl", .str "urlB")]] rfl rfl rfl
    simpa using h

/-! ## Claim C5 -/

/-- Dropping as many elements as `takeWhile` took is `dropWhile`. -/
theorem drop_takeWhile_length (p : Char → Bool) (l : List Char) :
    l.drop (l.takeWhile p).length = l.dropWhile p := by
  induction l with
  | nil => rfl
  | cons c cs ih =>
    by_cases h : p c
    · simp [List.takeWhile_cons, List.dropWhile_cons, h, ih]
    · simp [List.takeWhile_cons, List.dropWhile_cons, h]

/-- A list is its `takeWhile` followed by the rest. -/
theorem takeWhile_append_drop (p : Char → Bool) (l : List Char) :
    l = l.takeWhile p ++ l.drop (l.takeWhile p).length := by
  rw [drop_takeWhile_length]
  exact (List.takeWhile_append_dropWhile p l).symm

/-- The `takeWhile` of a satisfying run followed by a failing element is
exactly the run. -/
theorem takeWhile_stop (p : Char → Bool) (xs : List Char) (y : Char) (ys : List Char)
    (hxs : ∀ c ∈ xs, p c = true) (hy : p y = false) :
    (xs ++ y :: ys).takeWhile p = xs := by
  induction xs with
  | nil => simp [List.takeWhile_cons, hy]
  | cons x xr ih =>
    have hx : p x = true := hxs x (List.mem_cons_self x xr)
    simp only [List.cons_append, List.takeWhile_cons, hx, if_true]
    rw [ih (fun c hc => hxs c (List.mem_cons_of_mem x hc))]

/-- `expectList` succeeds exactly on literal prefixes, returning the
remainder. -/
theorem expectList_some_iff (lit cs r : List Char) :
    expectList lit cs = some r ↔ cs = lit ++ r := by
  unfold expectList
  constructor
  · intro h
    by_cases hp : lit.isPrefixOf cs
    · rw [if_pos hp] at h
      obtain ⟨tail, htail⟩ := List.isPrefixOf_iff_prefix.mp hp
      injection h with h2
      rw [← h2, ← htail, List.drop_left]
    · rw [if_neg hp] at h
      cases h
  · intro h
    rw [h]
    have hp : lit.isPrefixOf (lit ++ r) :=
      List.isPrefixOf_iff_prefix.mpr (List.prefix_append lit r)
    rw [if_pos hp, List.drop_left]

/-- The document text a cue match corresponds to. -/
def renderCue (m : XmlCue) : List Char :=
  CUE_OPEN ++ m.start ++ CUE_MID1 ++ m.dur ++ CUE_MID2 ++ m.txt ++ CUE_CLOSE

/-- Side conditions for `renderCue m` to be a real `RE_XML_TRANSCRIPT`
match: the attribute groups contain no `\x22`, the text group no `<`. -/
def CueOk (m : XmlCue) : Prop :=
  (∀ c ∈ m.start, notQuote c = true) ∧ (∀ c ∈ m.dur, notQuote c = true) ∧
  (∀ c ∈ m.txt, notLt c = true)

/-- `cueMatchAt` recognizes every structural occurrence: matching is
complete. -/
theorem cueMatchAt_of_decomp (m : XmlCue) (rest : List Char) (hok : CueOk m) :
    cueMatchAt (renderCue m ++ rest) = some (m, rest) := by
  obtain ⟨s, d, t⟩ := m
  obtain ⟨hs, hd, ht⟩ := hok
  have hren : renderCue ⟨s, d, t⟩ ++ rest =
      CUE_OPEN ++ (s ++ (CUE_MID1 ++ (d ++ (CUE_MID2 ++ (t ++ (CUE_CLOSE ++ rest)))))) := by
    simp [renderCue, List.append_assoc]
  have hg1 : (s ++ (CUE_MID1 ++ (d ++ (CUE_MID2 ++ (t ++ (CUE_CLOSE ++ rest)))))).takeWhile
      notQuote = s := by
    have he : CUE_MID1 ++ (d ++ (CUE_MID2 ++ (t ++ (CUE_CLOSE ++ rest)))) =
        '"' :: (" dur=\"".toList ++ (d ++ (CUE_MID2 ++ (t ++ (CUE_CLOSE ++ rest))))) := rfl
    rw [he]
    exact takeWhile_stop notQuote s '"' _ hs rfl
  have hg2 : (d ++ (CUE_MID2 ++ (t ++ (CUE_CLOSE ++ rest)))).takeWhile notQuote = d := by
    have he : CUE_MID2 ++ (t ++ (CUE_CLOSE ++ rest)) =
        '"' :: ('>' :: (t ++ (CUE_CLOSE ++ rest))) := rfl
    rw [he]
    exact takeWhile_stop notQuote d '"' _ hd rfl
  have hg3 : (t ++ (CUE_CLOSE ++ rest)).takeWhile notLt = t := by
    have he : CUE_CLOSE ++ rest = '<' :: ("/text>".toList ++ rest) := rfl
    rw [he]
    exact takeWhile_stop notLt t '<' _ ht rfl
  rw [hren]
  unfold cueMatchAt
  rw [(expectList_some_iff CUE_OPEN _ _).mpr rfl]
  simp only [hg1, List.drop_left]
  rw [(expectList_some_iff CUE_MID1 _ _).mpr rfl]
  simp only [hg2, List.drop_left]
  rw [(expectList_some_iff CUE_MID2 _ _).mpr rfl]
  simp only [hg3, List.drop_left]
  rw [(expectList_some_iff CUE_CLOSE _ _).mpr rfl]

/-- `cueMatchAt` only reports structural occurrences, with the exact
groups and remainder: matching is sound. -/
theorem cueMatchAt_some_decomp (cs : List Char) (m : XmlCue) (rest : List Char)
    (h : cueMatchAt cs = some (m, rest)) :
    CueOk m ∧ cs = renderCue m ++ rest := by
  unfold cueMatchAt at h
  split at h
  · cases h
  · rename_i r1 h1
    split at h
    · cases h
    · rename_i r2 h2
      split at h
      · cases h
      · rename_i r3 h3
        split at h
        · cases h
        · rename_i r4 h4
          injection h with h5
          have hm : (⟨r1.takeWhile notQuote, r2.takeWhile notQuote,
              r3.takeWhile notLt⟩ : XmlCue) = m := congrArg Prod.fst h5
          have hrest : r4 = rest := congrArg Prod.snd h5
          have e1 : cs = CUE_OPEN ++ r1 := (expectList_some_iff _ _ _).mp h1
          have e2 : r1 = r1.takeWhile notQuote ++ (CUE_MID1 ++ r2) := by
            have hsp := takeWhile_append_drop notQuote r1
            rw [(expectList_some_iff _ _ _).mp h2] at hsp
            exact hsp
          have e3 : r2 = r2.takeWhile notQuote ++ (CUE_MID2 ++ r3) := by
            have hsp := takeWhile_append_drop notQuote r2
            rw [(expectList_some_iff _ _ _).mp h3] at hsp
            exact hsp
          have e4 : r3 = r3.takeWhile notLt ++ (CUE_CLOSE ++ r4) := by
            have hsp := takeWhile_append_drop notLt r3
            rw [(expectList_some_iff _ _ _).mp h4] at hsp
            exact hsp
          rw [e2] at e1
          rw [e3] at e1
          rw [e4] at e1
          subst hrest
          subst hm
          constructor
          · exact ⟨fun c hc => List.mem_takeWhile_imp hc,
                   fun c hc => List.mem_takeWhile_imp hc,
                   fun c hc => List.mem_takeWhile_imp hc⟩
          · rw [e1]
            simp [renderCue, List.append_assoc]

/-- A match consumes at least one character. -/
theorem cueMatchAt_length (cs : List Char) (m : XmlCue) (rest : List Char)
    (h : cueMatchAt cs = some (m, rest)) : rest.length < cs.length := by
  obtain ⟨-, hdec⟩ := cueMatchAt_some_decomp cs m rest h
  have hopen : CUE_OPEN.length = 13 := rfl
  rw [hdec]
  simp [renderCue, List.length_append, hopen]
  omega

/-- Declarative characterization of `matchAll`: the document splits into
skipped characters at which no match starts (leftmost scanning) and
whole, non-overlapping matches, in document order. -/
inductive CueSplit : List Char → List XmlCue → Prop where
  | nil : CueSplit [] []
  | skip (c : Char) (cs : List Char) (ms : List XmlCue) :
      (¬ ∃ m rest, CueOk m ∧ c :: cs = renderCue m ++ rest) →
      CueSplit cs ms → CueSplit (c :: cs) ms
  | matched (m : XmlCue) (rest : List Char) (ms : List XmlCue) :
      CueOk m → CueSplit rest ms → CueSplit (renderCue m ++ rest) (m :: ms)

/-- The fueled scanner satisfies the declarative characterization when
given enough fuel. -/
theorem xmlMatchesF_cueSplit (fuel : Nat) : ∀ cs : List Char, cs.length ≤ fuel →
    CueSplit cs (xmlMatchesF fuel cs) := by
  induction fuel with
  | zero =>
    intro cs h
    have hnil : cs = [] := List.length_eq_zero.mp (Nat.le_zero.mp h)
    rw [hnil]
    exact CueSplit.nil
  | succ fuel ih =>
    intro cs hlen
    cases cs with
    | nil => exact CueSplit.nil
    | cons c cs2 =>
      cases hm : cueMatchAt (c :: cs2) with
      | some p =>
        obtain ⟨m, rest⟩ := p
        obtain ⟨hok, hdec⟩ := cueMatchAt_some_decomp _ _ _ hm
        have hlt := cueMatchAt_length _ _ _ hm
        have hrest : rest.length ≤ fuel := by
          simp at hlen hlt
          omega
        rw [show xmlMatchesF (fuel + 1) (c :: cs2) = m :: xmlMatchesF fuel rest by
          simp [xmlMatchesF, hm]]
        rw [hdec]
        exact CueSplit.matched m rest _ hok (ih rest hrest)
      | none =>
        have hrec := ih cs2 (by simp at hlen; omega)
        rw [show xmlMatchesF (fuel + 1) (c :: cs2) = xmlMatchesF fuel cs2 by
          simp [xmlMatchesF, hm]]
        refine CueSplit.skip c cs2 _ ?_ hrec
        rintro ⟨m, rest, hok, hdec⟩
        rw [hdec, cueMatchAt_of_decomp m rest hok] at hm
        cases hm

/-- Claim C5 (confirmed).  The timed-text parser emits one segment per
non-overlapping leftmost match of `RE_XML_TRANSCRIPT`, in document order
(`CueSplit` pins the match list down declaratively); each segment carries
the group texts verbatim (no entity decoding), `offset`/`duration` as
`parseFloat` of the first/second group, and `lang` equal to the
configured language when set (`??`), else the `languageCode` of the track
at index 0; a body with no match yields the empty list, not an error. -/
theorem c5_timedText :
    (∀ cs : List Char, CueSplit cs (xmlMatches cs)) ∧
    (∀ (body : String) (lv : JsValue),
      parseTimedText body lv = (xmlMatches body.toList).map (fun m =>
        { text := String.mk m.txt
          duration := parseFloatM (String.mk m.dur)
          offset := parseFloatM (String.mk m.start)
          lang := lv })) ∧
    (∀ (body : String) (lv : JsValue),
      xmlMatches body.toList = [] → parseTimedText body lv = []) ∧
    (∀ (l : String) (t0 : JsValue), segmentLang (some l) t0 = .str l) ∧
    (∀ t0 : JsValue, segmentLang none t0 = jsGetPerm t0 "languageCode") := by
  refine ⟨fun cs => xmlMatchesF_cueSplit cs.length cs (le_refl _), ?_, ?_, ?_, ?_⟩
  · intro body lv
    rfl
  · intro body lv h
    unfold parseTimedText
    rw [h]
    rfl
  · intro l t0
    rfl
  · intro t0
    rfl

/-- Claim C5, witness: the spec's two-cue example and a no-match body. -/
theorem c5_witness :
    CueSplit cueBody.toList (xmlMatches cueBody.toList) ∧
    parseTimedText cueBody (.str "en") =
      [⟨"Hello", .val (Rat.divInt 5 2), .val 1, .str "en"⟩,
       ⟨"World", .val 1, .val (Rat.divInt 7 2), .str "en"⟩] ∧
    xmlMatches "no xml here".toList = [] ∧
    parseTimedText "no xml here" (.str "en") = [] :=
  ⟨c5_timedText.1 cueBody.toList, rfl, rfl,
   c5_timedText.2.2.1 "no xml here" (.str "en") rfl⟩

/-! ## Claim C6 -/

/-- A capture-class character is not a double quote. -/
theorem capClass_not_quote (c : Char) (h : capClass c = true) : c ≠ '"' := by
  intro he
  subst he
  simp [capClass] at h

/-- A capture-class character is not an ampersand. -/
theorem capClass_not_amp (c : Char) (h : capClass c = true) : c ≠ '&' := by
  intro he
  subst he
  simp [capClass] at h

/-- A capture-class character is not a question mark. -/
theorem capClass_not_q (c : Char) (h : capClass c = true) : c ≠ '?' := by
  intro he
  subst he
  simp [capClass] at h

/-- A capture-class character is not a slash. -/
theorem capClass_not_slash (c : Char) (h : capClass c = true) : c ≠ '/' := by
  intro he
  subst he
  simp [capClass] at h

/-- A capture-class character matches `.` (it is not a line
terminator). -/
theorem capClass_jsDot (c : Char) (h : capClass c = true) : jsDot c = true := by
  simp [capClass, jsWhitespace] at h
  simp [jsDot]
  tauto

/-- A literal matches itself (case-insensitively) at the front of any
extension. -/
theorem litCI_self_append (lit cs : List Char) : litCI lit (lit ++ cs) = some cs := by
  induction lit with
  | nil => rfl
  | cons l ls ih =>
    show litCI (l :: ls) (l :: (ls ++ cs)) = some cs
    unfold litCI
    rw [if_pos rfl]
    exact ih

/-- `takeCls` takes a whole list of satisfying characters. -/
theorem takeCls_exact (cls : Char → Bool) (id : List Char)
    (hcap : ∀ c ∈ id, cls c = true) :
    takeCls cls id.length id = some (id, []) := by
  induction id with
  | nil => rfl
  | cons c r ih =>
    show takeCls cls (r.length + 1) (c :: r) = _
    unfold takeCls
    rw [if_pos (hcap c (List.mem_cons_self c r))]
    rw [ih (fun x hx => hcap x (List.mem_cons_of_mem c hx))]
    rfl

/-- The capturing group accepts exactly an 11-character candidate of its
class. -/
theorem captureGroup_exact (id : List Char) (hlen : id.length = 11)
    (hcap : ∀ c ∈ id, capClass c = true) :
    captureGroup id = some id := by
  unfold captureGroup
  rw [← hlen, takeCls_exact capClass id hcap]
  rfl

/-- A greedy star fails when its continuation fails on every suffix. -/
theorem manyGreedy_none (cls : Char → Bool) (cs : List Char)
    (k : List Char → Option (List Char))
    (h : ∀ cs2, cs2 <:+ cs → k cs2 = none) :
    manyGreedy cls cs k = none := by
  induction cs with
  | nil => exact h [] (List.suffix_refl [])
  | cons c cs2 ih =>
    have hk := h (c :: cs2) (List.suffix_refl _)
    have hrec := ih (fun cs3 hs => h cs3 (hs.trans (List.suffix_cons c cs2)))
    unfold manyGreedy
    by_cases hc : cls c
    · rw [if_pos hc, hrec, hk]
      rfl
    · rw [if_neg hc, hk]

/-- A greedy star passes over a block of satisfying characters whose
interior positions all fail the continuation. -/
theorem manyGreedy_append_none (cls : Char → Bool) (xs ys : List Char)
    (k : List Char → Option (List Char))
    (hxs : ∀ c ∈ xs, cls c = true)
    (hmid : ∀ zs, zs ≠ [] → zs <:+ xs → k (zs ++ ys) = none) :
    manyGreedy cls (xs ++ ys) k = manyGreedy cls ys k := by
  induction xs with
  | nil => rfl
  | cons x xr ih =>
    have hx := hxs x (List.mem_cons_self x xr)
    have hk : k ((x :: xr) ++ ys) = none := hmid (x :: xr) (by simp) (List.suffix_refl _)
    simp only [List.cons_append] at hk
    have hrec := ih (fun c hc => hxs c (List.mem_cons_of_mem x hc))
      (fun zs hne hs => hmid zs hne (hs.trans (List.suffix_cons x xr)))
    show manyGreedy cls (x :: (xr ++ ys)) k = manyGreedy cls ys k
    rw [show manyGreedy cls (x :: (xr ++ ys)) k =
      if cls x = true then firstSome (manyGreedy cls (xr ++ ys) k) (k (x :: (xr ++ ys)))
      else k (x :: (xr ++ ys)) from rfl]
    rw [if_pos hx, hrec, hk]
    exact firstSome_none_right _

/-- The `[?&]v=` tail fails on any other head character. -/
theorem qvEq_none_of_head (c : Char) (r : List Char) (h : qAmp c = false) :
    qvEq (c :: r) = none := by
  show (if qAmp c = true then litThenCap ['v', '='] r else none) = none
  rw [if_neg (by simp [h])]

/-- The `\/.+\/` tail fails on a non-slash head. -/
theorem slashThenDotPlus_none_of_head (c : Char) (r : List Char) (h : c ≠ '/') :
    slashThenDotPlus (c :: r) = none := by
  show (if c = '/' then dotPlusSlashCap r else none) = none
  rw [if_neg h]

/-- The final `\/` of the first alternative fails on a non-slash head. -/
theorem slashThenCap_none_of_head (c : Char) (r : List Char) (h : c ≠ '/') :
    slashThenCap (c :: r) = none := by
  show (if c = '/' then captureGroup r else none) = none
  rw [if_neg h]

/-- Inside a capture-class candidate there is no slash for `.+\/` to
finish on. -/
theorem manyGreedy_slashThenCap_capClass (id : List Char)
    (hcap : ∀ c ∈ id, capClass c = true) :
    manyGreedy jsDot id slashThenCap = none := by
  apply manyGreedy_none
  intro cs2 hs
  cases cs2 with
  | nil => rfl
  | cons c r =>
    exact slashThenCap_none_of_head c r
      (capClass_not_slash c (hcap c (hs.subset (List.mem_cons_self c r))))

/-- `.+\/` followed by the capture cannot match inside a capture-class
candidate. -/
theorem dotPlusSlashCap_capClass (id : List Char)
    (hcap : ∀ c ∈ id, capClass c = true) :
    dotPlusSlashCap id = none := by
  cases id with
  | nil => rfl
  | cons c r =>
    show (if jsDot c = true then manyGreedy jsDot r slashThenCap else none) = none
    rw [if_pos (capClass_jsDot c (hcap c (List.mem_cons_self c r)))]
    exact manyGreedy_slashThenCap_capClass r
      (fun x hx => hcap x (List.mem_cons_of_mem c hx))

/-- `.*[?&]v=` cannot find its `[?&]` inside a capture-class
candidate. -/
theorem manyGreedy_qvEq_capClass (id : List Char)
    (hcap : ∀ c ∈ id, capClass c = true) :
    manyGreedy jsDot id qvEq = none := by
  apply manyGreedy_none
  intro cs2 hs
  cases cs2 with
  | nil => rfl
  | cons c r =>
    have hc := hcap c (hs.subset (List.mem_cons_self c r))
    apply qvEq_none_of_head
    unfold qAmp
    simp [capClass_not_q c hc, capClass_not_amp c hc]

/-- The scan moves on from a position where the pattern fails. -/
theorem scanYt_step (c : Char) (cs : List Char) (res : Option (List Char))
    (h1 : tryAt (c :: cs) = none) (h2 : scanYt cs = res) : scanYt (c :: cs) = res := by
  unfold scanYt
  rw [h1, h2]
  rfl

/-- The scan stops at the leftmost position where the pattern
matches. -/
theorem scanYt_found (c : Char) (cs : List Char) (res : List Char)
    (h : tryAt (c :: cs) = some res) : scanYt (c :: cs) = some res := by
  unfold scanYt
  rw [h]
  rfl

/-- At a position starting with `youtube.com/` the pattern reduces to its
inner alternation. -/
theorem tryAt_at_ytcom (cs : List Char) : tryAt (LIT_YTCOM ++ cs) = innerAlts cs := by
  unfold tryAt
  rw [litCI_self_append]
  have hbe : litCI LIT_YTBE (LIT_YTCOM ++ cs) = none := rfl
  rw [hbe]
  exact firstSome_none_right _

/-- At a position starting with `youtu.be/` the pattern reduces to the
capturing group. -/
theorem tryAt_at_ytbe (cs : List Char) : tryAt (LIT_YTBE ++ cs) = captureGroup cs := by
  unfold tryAt
  rw [litCI_self_append]
  have hcom : litCI LIT_YTCOM (LIT_YTBE ++ cs) = none := rfl
  rw [hcom]
  rfl

/-- The inner alternation on `watch?v=<id>`: the path and `v|embed|e`
alternatives fail, `.*[?&]v=` matches and captures the id. -/
theorem innerAlts_watch (id : List Char) (hlen : id.length = 11)
    (hcap : ∀ c ∈ id, capClass c = true) :
    innerAlts (['w','a','t','c','h','?','v','='] ++ id) = some id := by
  have hseg : altSegment (['w','a','t','c','h','?','v','='] ++ id) = none := by
    show (if nonSlash 'w' = true then
        manyGreedy nonSlash (['a','t','c','h','?','v','='] ++ id) slashThenDotPlus
      else none) = none
    rw [if_pos (by decide)]
    apply manyGreedy_none
    intro cs2 hs
    cases cs2 with
    | nil => rfl
    | cons c r =>
      apply slashThenDotPlus_none_of_head
      have hc : c ∈ ['a','t','c','h','?','v','='] ++ id :=
        hs.subset (List.mem_cons_self c r)
      rcases List.mem_append.mp hc with h | h
      · fin_cases h <;> decide
      · exact capClass_not_slash c (hcap c h)
  have hve : altVE (['w','a','t','c','h','?','v','='] ++ id) = none := rfl
  have hq : altQuery (['w','a','t','c','h','?','v','='] ++ id) = some id := by
    show manyGreedy jsDot (['w','a','t','c','h'] ++ (['?','v','='] ++ id)) qvEq = some id
    rw [manyGreedy_append_none jsDot ['w','a','t','c','h'] (['?','v','='] ++ id) qvEq
      (by intro c hc; fin_cases hc <;> decide)
      (by intro zs hne hsuf
          cases zs with
          | nil => exact absurd rfl hne
          | cons z zr =>
            apply qvEq_none_of_head
            have hz : z ∈ ['w','a','t','c','h'] := hsuf.subset (List.mem_cons_self z zr)
            fin_cases hz <;> decide)]
    rw [show manyGreedy jsDot (['?','v','='] ++ id) qvEq =
      if jsDot '?' = true then
        firstSome (manyGreedy jsDot (['v','='] ++ id) qvEq) (qvEq ('?' :: (['v','='] ++ id)))
      else qvEq ('?' :: (['v','='] ++ id)) from rfl]
    rw [if_pos (by decide)]
    have h1 : manyGreedy jsDot (['v','='] ++ id) qvEq = none := by
      rw [manyGreedy_append_none jsDot ['v','='] id qvEq
        (by intro c hc; fin_cases hc <;> decide)
        (by intro zs hne hsuf
            cases zs with
            | nil => exact absurd rfl hne
            | cons z zr =>
              apply qvEq_none_of_head
              have hz : z ∈ ['v','='] := hsuf.subset (List.mem_cons_self z zr)
              fin_cases hz <;> decide)]
      exact manyGreedy_qvEq_capClass id hcap
    have h2 : qvEq ('?' :: (['v','='] ++ id)) = some id := by
      show (if qAmp '?' = true then litThenCap ['v','='] (['v','='] ++ id) else none) = some id
      rw [if_pos (by decide)]
      show (match litCI ['v','='] (['v','='] ++ id) with
            | some r => captureGroup r
            | none => none) = some id
      rw [litCI_self_append]
      exact captureGroup_exact id hlen hcap
    rw [h1, h2]
    rfl
  unfold innerAlts
  rw [hseg, hve, hq]
  rfl

/-- `[^\/]+\/.+\/` fails when only one slash remains before the id. -/
theorem manyGreedy_nonSlash_single (pre id : List Char)
    (hpre : ∀ c ∈ pre, c ≠ '/')
    (hcap : ∀ c ∈ id, capClass c = true) :
    manyGreedy nonSlash (pre ++ '/' :: id) slashThenDotPlus = none := by
  rw [manyGreedy_append_none nonSlash pre ('/' :: id) slashThenDotPlus
    (fun c hc => by simp [nonSlash, hpre c hc])
    (fun zs hne hsuf => by
      cases zs with
      | nil => exact absurd rfl hne
      | cons z zr =>
        exact slashThenDotPlus_none_of_head z _
          (hpre z (hsuf.subset (List.mem_cons_self z zr))))]
  rw [show manyGreedy nonSlash ('/' :: id) slashThenDotPlus =
    if nonSlash '/' = true then
      firstSome (manyGreedy nonSlash id slashThenDotPlus) (slashThenDotPlus ('/' :: id))
    else slashThenDotPlus ('/' :: id) from rfl]
  rw [if_neg (by decide)]
  show (if '/' = '/' then dotPlusSlashCap id else none) = none
  rw [if_pos rfl]
  exact dotPlusSlashCap_capClass id hcap

/-- The inner alternation on `embed/<id>`: the `embed/` alternative
captures the id. -/
theorem innerAlts_embed (id : List Char) (hlen : id.length = 11)
    (hcap : ∀ c ∈ id, capClass c = true) :
    innerAlts (['e','m','b','e','d','/'] ++ id) = some id := by
  have hseg : altSegment (['e','m','b','e','d','/'] ++ id) = none := by
    show (if nonSlash 'e' = true then
        manyGreedy nonSlash (['m','b','e','d'] ++ '/' :: id) slashThenDotPlus
      else none) = none
    rw [if_pos (by decide)]
    exact manyGreedy_nonSlash_single ['m','b','e','d'] id
      (by intro c hc; fin_cases hc <;> decide) hcap
  have hve : altVE (['e','m','b','e','d','/'] ++ id) = some id := by
    have hv : litThenCap ['v', '/'] (['e','m','b','e','d','/'] ++ id) = none := rfl
    have hem : litThenCap ['e','m','b','e','d','/'] (['e','m','b','e','d','/'] ++ id) =
        some id := by
      show (match litCI ['e','m','b','e','d','/'] (['e','m','b','e','d','/'] ++ id) with
            | some r => captureGroup r
            | none => none) = some id
      rw [litCI_self_append]
      exact captureGroup_exact id hlen hcap
    unfold altVE
    rw [hv, hem]
    rfl
  unfold innerAlts
  rw [hseg, hve]
  rfl

/-- The inner alternation on `v/<id>`: the `v/` alternative captures the
id. -/
theorem innerAlts_v (id : List Char) (hlen : id.length = 11)
    (hcap : ∀ c ∈ id, capClass c = true) :
    innerAlts (['v','/'] ++ id) = some id := by
  have hseg : altSegment (['v','/'] ++ id) = none := by
    show (if nonSlash 'v' = true then
        manyGreedy nonSlash ([] ++ '/' :: id) slashThenDotPlus
      else none) = none
    rw [if_pos (by decide)]
    exact manyGreedy_nonSlash_single [] id (by intro c hc; cases hc) hcap
  have hve : altVE (['v','/'] ++ id) = some id := by
    have hv : litThenCap ['v', '/'] (['v','/'] ++ id) = some id := by
      show (match litCI ['v','/'] (['v','/'] ++ id) with
            | some r => captureGroup r
            | none => none) = some id
      rw [litCI_self_append]
      exact captureGroup_exact id hlen hcap
    unfold altVE
    rw [hv]
    exact firstSome_some_eq id _
  unfold innerAlts
  rw [hseg, hve]
  rfl

/-- The inner alternation on `e/<id>`: the `e/` alternative captures the
id. -/
theorem innerAlts_e (id : List Char) (hlen : id.length = 11)
    (hcap : ∀ c ∈ id, capClass c = true) :
    innerAlts (['e','/'] ++ id) = some id := by
  have hseg : altSegment (['e','/'] ++ id) = none := by
    show (if nonSlash 'e' = true then
        manyGreedy nonSlash ([] ++ '/' :: id) slashThenDotPlus
      else none) = none
    rw [if_pos (by decide)]
    exact manyGreedy_nonSlash_single [] id (by intro c hc; cases hc) hcap
  have hve : altVE (['e','/'] ++ id) = some id := by
    have hv : litThenCap ['v', '/'] (['e','/'] ++ id) = none := rfl
    have hem : litThenCap ['e','m','b','e','d','/'] (['e','/'] ++ id) = none := rfl
    have he2 : litThenCap ['e','/'] (['e','/'] ++ id) = some id := by
      show (match litCI ['e','/'] (['e','/'] ++ id) with
            | some r => captureGroup r
            | none => none) = some id
      rw [litCI_self_append]
      exact captureGroup_exact id hlen hcap
    unfold altVE
    rw [hv, hem, he2]
    rfl
  unfold innerAlts
  rw [hseg, hve]
  rfl

/-- The inner alternation on `<seg>/<mid>/<id>`: the `[^\/]+\/.+\/`
alternative consumes the two path segments and captures the id. -/
theorem innerAlts_segshape (seg mid id : List Char)
    (hselen : seg ≠ []) (hseg : ∀ c ∈ seg, c ≠ '/')
    (hmlen : mid ≠ []) (hmid : ∀ c ∈ mid, c ≠ '/' ∧ jsDot c = true)
    (hlen : id.length = 11) (hcap : ∀ c ∈ id, capClass c = true) :
    innerAlts (seg ++ '/' :: (mid ++ '/' :: id)) = some id := by
  have hsegm : altSegment (seg ++ '/' :: (mid ++ '/' :: id)) = some id := by
    cases seg with
    | nil => exact absurd rfl hselen
    | cons s0 srest =>
      show (if nonSlash s0 = true then
          manyGreedy nonSlash (srest ++ '/' :: (mid ++ '/' :: id)) slashThenDotPlus
        else none) = some id
      rw [if_pos (by simp [nonSlash, hseg s0 (List.mem_cons_self s0 srest)])]
      rw [manyGreedy_append_none nonSlash srest ('/' :: (mid ++ '/' :: id))
        slashThenDotPlus
        (fun c hc => by
          simp [nonSlash, hseg c (List.mem_cons_of_mem s0 hc)])
        (fun zs hne hsuf => by
          cases zs with
          | nil => exact absurd rfl hne
          | cons z zr =>
            exact slashThenDotPlus_none_of_head z _
              (hseg z (List.mem_cons_of_mem s0
                (hsuf.subset (List.mem_cons_self z zr)))))]
      rw [show manyGreedy nonSlash ('/' :: (mid ++ '/' :: id)) slashThenDotPlus =
        if nonSlash '/' = true then
          firstSome (manyGreedy nonSlash (mid ++ '/' :: id) slashThenDotPlus)
            (slashThenDotPlus ('/' :: (mid ++ '/' :: id)))
        else slashThenDotPlus ('/' :: (mid ++ '/' :: id)) from rfl]
      rw [if_neg (by decide)]
      show (if '/' = '/' then dotPlusSlashCap (mid ++ '/' :: id) else none) = some id
      rw [if_pos rfl]
      cases mid with
      | nil => exact absurd rfl hmlen
      | cons m0 mrest =>
        show (if jsDot m0 = true then
            manyGreedy jsDot (mrest ++ '/' :: id) slashThenCap else none) = some id
        rw [if_pos (hmid m0 (List.mem_cons_self m0 mrest)).2]
        rw [manyGreedy_append_none jsDot mrest ('/' :: id) slashThenCap
          (fun c hc => (hmid c (List.mem_cons_of_mem m0 hc)).2)
          (fun zs hne hsuf => by
            cases zs with
            | nil => exact absurd rfl hne
            | cons z zr =>
              exact slashThenCap_none_of_head z _
                (hmid z (List.mem_cons_of_mem m0
                  (hsuf.subset (List.mem_cons_self z zr)))).1)]
        rw [show manyGreedy jsDot ('/' :: id) slashThenCap =
          if jsDot '/' = true then
            firstSome (manyGreedy jsDot id slashThenCap) (slashThenCap ('/' :: id))
          else slashThenCap ('/' :: id) from rfl]
        rw [if_pos (by decide)]
        rw [manyGreedy_slashThenCap_capClass id hcap]
        show firstSome none (if '/' = '/' then captureGroup id else none) = some id
        rw [if_pos rfl, captureGroup_exact id hlen hcap]
        rfl
  unfold innerAlts
  rw [hsegm]
  rfl

/-- Leftmost scan over a full watch URL. -/
theorem scanYt_watch (id : List Char) (hlen : id.length = 11)
    (hcap : ∀ c ∈ id, capClass c = true) :
    scanYt ("https://www.youtube.com/watch?v=".toList ++ id) = some id := by
  show scanYt ('h' :: 't' :: 't' :: 'p' :: 's' :: ':' :: '/' :: '/' :: 'w' :: 'w' :: 'w' :: '.' ::(LIT_YTCOM ++ (['w','a','t','c','h','?','v','='] ++ id))) = some id
  refine scanYt_step _ _ _ rfl ?_
  refine scanYt_step _ _ _ rfl ?_
  refine scanYt_step _ _ _ rfl ?_
  refine scanYt_step _ _ _ rfl ?_
  refine scanYt_step _ _ _ rfl ?_
  refine scanYt_step _ _ _ rfl ?_
  refine scanYt_step _ _ _ rfl ?_
  refine scanYt_step _ _ _ rfl ?_
  refine scanYt_step _ _ _ rfl ?_
  refine scanYt_step _ _ _ rfl ?_
  refine scanYt_step _ _ _ rfl ?_
  refine scanYt_step _ _ _ rfl ?_
  refine scanYt_found _ _ _ ?_
  show tryAt (LIT_YTCOM ++ (['w','a','t','c','h','?','v','='] ++ id)) = some id
  rw [tryAt_at_ytcom]
  exact innerAlts_watch id hlen hcap

/-- Leftmost scan over a full embed URL. -/
theorem scanYt_embed (id : List Char) (hlen : id.length = 11)
    (hcap : ∀ c ∈ id, capClass c = true) :
    scanYt ("https://www.youtube.com/embed/".toList ++ id) = some id := by
  show scanYt ('h' :: 't' :: 't' :: 'p' :: 's' :: ':' :: '/' :: '/' :: 'w' :: 'w' :: 'w' :: '.' ::(LIT_YTCOM ++ (['e','m','b','e','d','/'] ++ id))) = some id
  refine scanYt_step _ _ _ rfl ?_
  refine scanYt_step _ _ _ rfl ?_
  refine scanYt_step _ _ _ rfl ?_
  refine scanYt_step _ _ _ rfl ?_
  refine scanYt_step _ _ _ rfl ?_
  refine scanYt_step _ _ _ rfl ?_
  refine scanYt_step _ _ _ rfl ?_
  refine scanYt_step _ _ _ rfl ?_
  refine scanYt_step _ _ _ rfl ?_
  refine scanYt_step _ _ _ rfl ?_
  refine scanYt_step _ _ _ rfl ?_
  refine scanYt_step _ _ _ rfl ?_
  refine scanYt_found _ _ _ ?_
  show tryAt (LIT_YTCOM ++ (['e','m','b','e','d','/'] ++ id)) = some id
  rw [tryAt_at_ytcom]
  exact innerAlts_embed id hlen hcap

/-- Leftmost scan over a full `/v/` URL. -/
theorem scanYt_v (id : List Char) (hlen : id.length = 11)
    (hcap : ∀ c ∈ id, capClass c = true) :
    scanYt ("https://www.youtube.com/v/".toList ++ id) = some id := by
  show scanYt ('h' :: 't' :: 't' :: 'p' :: 's' :: ':' :: '/' :: '/' :: 'w' :: 'w' :: 'w' :: '.' ::(LIT_YTCOM ++ (['v','/'] ++ id))) = some id
  refine scanYt_step _ _ _ rfl ?_
  refine scanYt_step _ _ _ rfl ?_
  refine scanYt_step _ _ _ rfl ?_
  refine scanYt_step _ _ _ rfl ?_
  refine scanYt_step _ _ _ rfl ?_
  refine scanYt_step _ _ _ rfl ?_
  refine scanYt_step _ _ _ rfl ?_
  refine scanYt_step _ _ _ rfl ?_
  refine scanYt_step _ _ _ rfl ?_
  refine scanYt_step _ _ _ rfl ?_
  refine scanYt_step _ _ _ rfl ?_
  refine scanYt_step _ _ _ rfl ?_
  refine scanYt_found _ _ _ ?_
  show tryAt (LIT_YTCOM ++ (['v','/'] ++ id)) = some id
  rw [tryAt_at_ytcom]
  exact innerAlts_v id hlen hcap

/-- Leftmost scan over a full `/e/` URL. -/
theorem scanYt_e (id : List Char) (hlen : id.length = 11)
    (hcap : ∀ c ∈ id, capClass c = true) :
    scanYt ("https://www.youtube.com/e/".toList ++ id) = some id := by
  show scanYt ('h' :: 't' :: 't' :: 'p' :: 's' :: ':' :: '/' :: '/' :: 'w' :: 'w' :: 'w' :: '.' ::(LIT_YTCOM ++ (['e','/'] ++ id))) = some id
  refine scanYt_step _ _ _ rfl ?_
  refine scanYt_step _ _ _ rfl ?_
  refine scanYt_step _ _ _ rfl ?_
  refine scanYt_step _ _ _ rfl ?_
  refine scanYt_step _ _ _ rfl ?_
  refine scanYt_step _ _ _ rfl ?_
  refine scanYt_step _ _ _ rfl ?_
  refine scanYt_step _ _ _ rfl ?_
  refine scanYt_step _ _ _ rfl ?_
  refine scanYt_step _ _ _ rfl ?_
  refine scanYt_step _ _ _ rfl ?_
  refine scanYt_step _ _ _ rfl ?_
  refine scanYt_found _ _ _ ?_
  show tryAt (LIT_YTCOM ++ (['e','/'] ++ id)) = some id
  rw [tryAt_at_ytcom]
  exact innerAlts_e id hlen hcap

/-- Leftmost scan over a full `youtu.be` URL. -/
theorem scanYt_ytbe (id : List Char) (hlen : id.length = 11)
    (hcap : ∀ c ∈ id, capClass c = true) :
    scanYt ("https://youtu.be/".toList ++ id) = some id := by
  show scanYt ('h' :: 't' :: 't' :: 'p' :: 's' :: ':' :: '/' :: '/' ::(LIT_YTBE ++ id)) = some id
  refine scanYt_step _ _ _ rfl ?_
  refine scanYt_step _ _ _ rfl ?_
  refine scanYt_step _ _ _ rfl ?_
  refine scanYt_step _ _ _ rfl ?_
  refine scanYt_step _ _ _ rfl ?_
  refine scanYt_step _ _ _ rfl ?_
  refine scanYt_step _ _ _ rfl ?_
  refine scanYt_step _ _ _ rfl ?_
  refine scanYt_found _ _ _ ?_
  show tryAt (LIT_YTBE ++ id) = some id
  rw [tryAt_at_ytbe]
  exact captureGroup_exact id hlen hcap

/-- Leftmost scan over a URL with an arbitrary path segment before the
trailing id. -/
theorem scanYt_segshape (seg mid id : List Char)
    (hselen : seg ≠ []) (hsegc : ∀ c ∈ seg, c ≠ '/')
    (hmlen : mid ≠ []) (hmidc : ∀ c ∈ mid, c ≠ '/' ∧ jsDot c = true)
    (hlen : id.length = 11) (hcap : ∀ c ∈ id, capClass c = true) :
    scanYt ("https://www.youtube.com/".toList ++ (seg ++ '/' :: (mid ++ '/' :: id))) =
      some id := by
  show scanYt ('h' :: 't' :: 't' :: 'p' :: 's' :: ':' :: '/' :: '/' :: 'w' :: 'w' :: 'w' :: '.' ::(LIT_YTCOM ++ (seg ++ '/' :: (mid ++ '/' :: id)))) = some id
  refine scanYt_step _ _ _ rfl ?_
  refine scanYt_step _ _ _ rfl ?_
  refine scanYt_step _ _ _ rfl ?_
  refine scanYt_step _ _ _ rfl ?_
  refine scanYt_step _ _ _ rfl ?_
  refine scanYt_step _ _ _ rfl ?_
  refine scanYt_step _ _ _ rfl ?_
  refine scanYt_step _ _ _ rfl ?_
  refine scanYt_step _ _ _ rfl ?_
  refine scanYt_step _ _ _ rfl ?_
  refine scanYt_step _ _ _ rfl ?_
  refine scanYt_step _ _ _ rfl ?_
  refine scanYt_found _ _ _ ?_
  show tryAt (LIT_YTCOM ++ (seg ++ '/' :: (mid ++ '/' :: id))) = some id
  rw [tryAt_at_ytcom]
  exact innerAlts_segshape seg mid id hselen hsegc hmlen hmidc hlen hcap

/-- `retrieveVideoId` on a non-11-character input returns the regular
expression capture. -/
theorem retrieveVideoId_of_scan (s : String) (cap : List Char) (hlen : s.length ≠ 11)
    (hscan : scanYt s.toList = some cap) :
    retrieveVideoId s = .ok (String.mk cap) := by
  unfold retrieveVideoId
  rw [if_neg hlen, hscan]

/-- Claim C6 (confirmed).  An exactly-11-character input is returned
unchanged, with no character-set validation; each known URL shape
(`watch?v=`, `embed/`, `v/`, `e/`, `youtu.be/`, and a path with an
arbitrary segment before a trailing 11-character id) yields exactly the
embedded 11-character id drawn from the alphabet excluding `"`, `&`,
`?`, `/` and whitespace. -/
theorem c6_extractor :
    (∀ s : String, s.length = 11 → retrieveVideoId s = .ok s) ∧
    (∀ id : List Char, id.length = 11 → (∀ c ∈ id, capClass c = true) →
      retrieveVideoId ("https://www.youtube.com/watch?v=" ++ String.mk id) =
        .ok (String.mk id) ∧
      retrieveVideoId ("https://www.youtube.com/embed/" ++ String.mk id) =
        .ok (String.mk id) ∧
      retrieveVideoId ("https://www.youtube.com/v/" ++ String.mk id) =
        .ok (String.mk id) ∧
      retrieveVideoId ("https://www.youtube.com/e/" ++ String.mk id) =
        .ok (String.mk id) ∧
      retrieveVideoId ("https://youtu.be/" ++ String.mk id) = .ok (String.mk id)) ∧
    (∀ seg mid id : List Char, seg ≠ [] → (∀ c ∈ seg, c ≠ '/') →
      mid ≠ [] → (∀ c ∈ mid, c ≠ '/' ∧ jsDot c = true) →
      id.length = 11 → (∀ c ∈ id, capClass c = true) →
      retrieveVideoId (String.mk ("https://www.youtube.com/".toList ++
        (seg ++ '/' :: (mid ++ '/' :: id)))) = .ok (String.mk id)) := by
  refine ⟨?_, ?_, ?_⟩
  · intro s h
    unfold retrieveVideoId
    rw [if_pos h]
  · intro id hlen hcap
    refine ⟨?_, ?_, ?_, ?_, ?_⟩
    · apply retrieveVideoId_of_scan
      · show ("https://www.youtube.com/watch?v=".toList ++ id).length ≠ 11
        rw [List.length_append, hlen]
        decide
      · exact scanYt_watch id hlen hcap
    · apply retrieveVideoId_of_scan
      · show ("https://www.youtube.com/embed/".toList ++ id).length ≠ 11
        rw [List.length_append, hlen]
        decide
      · exact scanYt_embed id hlen hcap
    · apply retrieveVideoId_of_scan
      · show ("https://www.youtube.com/v/".toList ++ id).length ≠ 11
        rw [List.length_append, hlen]
        decide
      · exact scanYt_v id hlen hcap
    · apply retrieveVideoId_of_scan
      · show ("https://www.youtube.com/e/".toList ++ id).length ≠ 11
        rw [List.length_append, hlen]
        decide
      · exact scanYt_e id hlen hcap
    · apply retrieveVideoId_of_scan
      · show ("https://youtu.be/".toList ++ id).length ≠ 11
        rw [List.length_append, hlen]
        decide
      · exact scanYt_ytbe id hlen hcap
  · intro seg mid id hselen hsegc hmlen hmidc hlen hcap
    apply retrieveVideoId_of_scan
    · show ("https://www.youtube.com/".toList ++
        (seg ++ '/' :: (mid ++ '/' :: id))).length ≠ 11
      simp [List.length_append, hlen]
    · exact scanYt_segshape seg mid id hselen hsegc hmlen hmidc hlen hcap

/-- Claim C6, witness at the id `dQw4w9WgXcQ`. -/
theorem c6_witness :
    retrieveVideoId "dQw4w9WgXcQ" = .ok "dQw4w9WgXcQ" ∧
    retrieveVideoId ("https://www.youtube.com/watch?v=" ++ String.mk "dQw4w9WgXcQ".toList) =
      .ok (String.mk "dQw4w9WgXcQ".toList) ∧
    retrieveVideoId ("https://youtu.be/" ++ String.mk "dQw4w9WgXcQ".toList) =
      .ok (String.mk "dQw4w9WgXcQ".toList) ∧
    retrieveVideoId (String.mk ("https://www.youtube.com/".toList ++
      ("shorts".toList ++ '/' :: ("abc".toList ++ '/' :: "dQw4w9WgXcQ".toList)))) =
      .ok (String.mk "dQw4w9WgXcQ".toList) :=
  ⟨c6_extractor.1 "dQw4w9WgXcQ" (by decide),
   (c6_extractor.2.1 "dQw4w9WgXcQ".toList (by decide) (by decide)).1,
   (c6_extractor.2.1 "dQw4w9WgXcQ".toList (by decide) (by decide)).2.2.2.2,
   c6_extractor.2.2 "shorts".toList "abc".toList "dQw4w9WgXcQ".toList
     (by decide) (by decide) (by decide) (by decide) (by decide) (by decide)⟩
